import Mathlib

set_option maxRecDepth 16384

/-!
Verification of the segmented-log transactional key-value store
(`src/borg/repository.py`).  The Python module is shallowly embedded:
byte strings become `List Nat` (each entry < 256 in real data), machine
integers become `Nat`/`Int` with explicit `% 2^32` where the code masks
with `& 0xffffffff`, dictionaries become association lists, the
filesystem (segment files, `index.<N>` / `hints.<N>` auxiliary files)
becomes explicit fields of a state record, and Python exceptions become
`Except`-style results that carry the mutated state at raise time.
-/

namespace Borg

/-- `MAX_OBJECT_SIZE = 20 * 1024 * 1024` (repository.py line 28). -/
def MAX_OBJECT_SIZE : Nat := 20 * 1024 * 1024

/-- `MAGIC = b'BORG_SEG'` as ASCII bytes. -/
def MAGIC : List Nat := [66, 79, 82, 71, 95, 83, 69, 71]

def TAG_PUT : Nat := 0

def TAG_DELETE : Nat := 1

def TAG_COMMIT : Nat := 2

/-- The code writes `x & 0xffffffff` on non-negative ints; on `Nat` this
is exactly `x % 2^32`. -/
def mask32 (x : Nat) : Nat := x % 4294967296

/-- One bit-round of the reflected CRC-32 (polynomial `0xEDB88320`),
as computed by `zlib.crc32`. -/
def crcRound (c : Nat) : Nat :=
  if c % 2 = 1 then (c / 2) ^^^ 0xEDB88320 else c / 2

/-- Feed one byte into a CRC-32 accumulator (8 bit-rounds). -/
def crcByte (c b : Nat) : Nat :=
  crcRound (crcRound (crcRound (crcRound
    (crcRound (crcRound (crcRound (crcRound (c ^^^ b))))))))

/-- `zlib.crc32(data, init)`: pre/post conditioning with `0xFFFFFFFF`
around a fold of `crcByte`. -/
def crc32With (init : Nat) (data : List Nat) : Nat :=
  (data.foldl crcByte (init ^^^ 0xFFFFFFFF)) ^^^ 0xFFFFFFFF

/-- `struct.pack('<I', n)`: four little-endian bytes. -/
def le32 (n : Nat) : List Nat :=
  [n % 256, n / 256 % 256, n / 65536 % 256, n / 16777216 % 256]

/-- `struct.unpack('<I', _)` on four little-endian bytes (0 padding when
the slice is short; all call sites first check the length). -/
def fromLE32 (bs : List Nat) : Nat :=
  bs.getD 0 0 + 256 * bs.getD 1 0 + 65536 * bs.getD 2 0 + 16777216 * bs.getD 3 0

/-- Python exception kinds that the module raises or catches.  `fuelOut`
is a model artifact (recursion fuel exhausted); it is never caught by
any modelled `except` clause. -/
inductive Err
  | integrityError
  | objectNotFound
  | checkNeeded
  | keyError
  | runtimeError
  | fileNotFound
  | internalOSError
  | osError
  | valueError
  | typeError
  | attributeError
  | assertionError
  | segmentFull
  | structError
  | fuelOut
deriving DecidableEq, Repr

/-- Equality of `Except` results is decidable (needed to evaluate the
model on concrete inputs). -/
instance instDecEqExcept {ε α : Type} [DecidableEq ε] [DecidableEq α] :
    DecidableEq (Except ε α) := fun a b =>
  match a, b with
  | .ok x, .ok y =>
    if h : x = y then .isTrue (congrArg Except.ok h)
    else .isFalse (fun hh => h (Except.ok.inj hh))
  | .error x, .error y =>
    if h : x = y then .isTrue (congrArg Except.error h)
    else .isFalse (fun hh => h (Except.error.inj hh))
  | .ok _, .error _ => .isFalse (fun hh => Except.noConfusion hh)
  | .error _, .ok _ => .isFalse (fun hh => Except.noConfusion hh)

/-! ### Association-list dictionaries -/

/-- `dict.get(k)` on an association list. -/
def alGet {α : Type} (m : List (Nat × α)) (k : Nat) : Option α :=
  match m with
  | [] => none
  | (k', v) :: rest => if k' = k then some v else alGet rest k

/-- `dict[k] = v`: replace an existing binding or append a new one. -/
def alSet {α : Type} (m : List (Nat × α)) (k : Nat) (v : α) : List (Nat × α) :=
  match m with
  | [] => [(k, v)]
  | (k', v') :: rest => if k' = k then (k, v) :: rest else (k', v') :: alSet rest k v

/-- `del dict[k]` (call sites check for presence where Python would
raise `KeyError`). -/
def alDel {α : Type} (m : List (Nat × α)) (k : Nat) : List (Nat × α) :=
  match m with
  | [] => []
  | (k', v') :: rest => if k' = k then rest else (k', v') :: alDel rest k

/-- `dict.get(k, d)`. -/
def alGetD {α : Type} (m : List (Nat × α)) (k : Nat) (d : α) : α :=
  (alGet m k).getD d

/-- `defaultdict(int)` read-modify-write: `m[k] += v`. -/
def alAdd (m : List (Nat × Int)) (k : Nat) (v : Int) : List (Nat × Int) :=
  alSet m k (alGetD m k 0 + v)

/-- `dict.setdefault(k, d)`. -/
def alSetdefault {α : Type} (m : List (Nat × α)) (k : Nat) (d : α) : List (Nat × α) :=
  match alGet m k with
  | some _ => m
  | none => alSet m k d

/-! ### Sorting segment ids (`segment_iterator` yields numeric order) -/

def insertAsc (n : Nat) : List Nat → List Nat
  | [] => [n]
  | x :: xs => if n ≤ x then n :: x :: xs else x :: insertAsc n xs

/-- Ascending numeric sort, as `segment_iterator()` produces. -/
def sortAsc : List Nat → List Nat
  | [] => []
  | x :: xs => insertAsc x (sortAsc xs)

def insertDesc (n : Nat) : List Nat → List Nat
  | [] => [n]
  | x :: xs => if x ≤ n then n :: x :: xs else x :: insertDesc n xs

/-- Descending numeric sort, as `segment_iterator(reverse=True)` produces. -/
def sortDesc : List Nat → List Nat
  | [] => []
  | x :: xs => insertDesc x (sortDesc xs)

/-- Last `n` bytes of a file (`fd.seek(-n, SEEK_END); fd.read(n)`). -/
def lastBytes (n : Nat) (bs : List Nat) : List Nat := bs.drop (bs.length - n)

/-! ### LoggedIO state and write path -/

/-- The mutable state of `LoggedIO` plus the segment files it owns.
`files` maps segment id to file contents; the LRU fd cache and fadvise
calls have no observable effect in the model.  `limit` is
`max_segment_size`. -/
structure IOSt where
  segment : Nat
  offset : Nat
  writeOpen : Bool
  limit : Nat
  files : List (Nat × List Nat)
deriving DecidableEq, Repr

/-- `LoggedIO.close_segment`. -/
def close_segment (io : IOSt) : IOSt :=
  if io.writeOpen then
    { io with segment := io.segment + 1, offset := 0, writeOpen := false }
  else io

/-- The rollover test in `get_write_fd`:
`self.offset and self.offset > self.limit` (Python truthiness of
`self.offset` is `offset ≠ 0`). -/
def rollNeeded (io : IOSt) : Bool :=
  io.offset != 0 && io.offset > io.limit

/-- The fd-opening half of `get_write_fd`: create the segment file,
write `MAGIC`, set `offset = MAGIC_LEN` (mkdir/sync_dir have no
observable effect in the model). -/
def openWriteFd (io : IOSt) : IOSt :=
  if io.writeOpen then io
  else
    { io with
      writeOpen := true
      offset := 8
      files := alSet io.files io.segment MAGIC }

/-- `get_write_fd()` with `raise_full=False` (total): roll to the next
segment when needed, then ensure the write fd. -/
def get_write_fd_nn (io : IOSt) : IOSt :=
  openWriteFd (if rollNeeded io then close_segment io else io)

/-- `get_write_fd(raise_full=True)`: raise `SegmentFull` instead of
rolling over. -/
def get_write_fd_rf (io : IOSt) : Except Err IOSt :=
  if rollNeeded io then .error .segmentFull else .ok (openWriteFd io)

/-- Append bytes to the currently open write segment (`fd.write`). -/
def fdWrite (io : IOSt) (bs : List Nat) : IOSt :=
  { io with files := alSet io.files io.segment (alGetD io.files io.segment [] ++ bs) }

/-- The bytes of a PUT frame:
`[crc:4][size:4][tag:1=0][key][value]` with
`size = len(data) + put_header_fmt.size` and the CRC chained exactly as
in `write_put`. -/
def putFrameBytes (id data : List Nat) : List Nat :=
  let size := data.length + 41
  let header := le32 size ++ [TAG_PUT]
  le32 (mask32 (crc32With (crc32With (crc32With 0 header) id) data)) ++ header ++ id ++ data

/-- The bytes of a DELETE frame (`size == put_header_fmt.size == 41`). -/
def deleteFrameBytes (id : List Nat) : List Nat :=
  let header := le32 41 ++ [TAG_DELETE]
  le32 (mask32 (crc32With (crc32With 0 header) id)) ++ header ++ id

/-- `LoggedIO.write_put(id, data, raise_full)`: returns the new io
state and `(segment, offset)` of the frame.  `struct.pack('<I', size)`
raises when `size ≥ 2^32`. -/
def write_put (id data : List Nat) (raise_full : Bool) (io : IOSt) :
    Except Err (IOSt × Nat × Nat) :=
  let step : IOSt → Except Err (IOSt × Nat × Nat) := fun io =>
    let size := data.length + 41
    if size ≥ 4294967296 then .error .structError
    else
      let offset := io.offset
      let io := fdWrite io (putFrameBytes id data)
      .ok ({ io with offset := io.offset + size }, io.segment, offset)
  if raise_full then
    match get_write_fd_rf io with
    | .error e => .error e
    | .ok io => step io
  else step (get_write_fd_nn io)

/-- `LoggedIO.write_delete(id, raise_full)`: returns the new io state
and `(segment, size)`. -/
def write_delete (id : List Nat) (raise_full : Bool) (io : IOSt) :
    Except Err (IOSt × Nat × Nat) :=
  let step : IOSt → Except Err (IOSt × Nat × Nat) := fun io =>
    let io := fdWrite io (deleteFrameBytes id)
    .ok ({ io with offset := io.offset + 41 }, io.segment, 41)
  if raise_full then
    match get_write_fd_rf io with
    | .error e => .error e
    | .ok io => step io
  else step (get_write_fd_nn io)

/-- `_commit = header_no_crc_fmt.pack(9, TAG_COMMIT)`. -/
def COMMIT_HDR : List Nat := le32 9 ++ [TAG_COMMIT]

/-- `LoggedIO.COMMIT`: the canonical COMMIT frame bytes. -/
def COMMIT_BYTES : List Nat := le32 (crc32With 0 COMMIT_HDR) ++ COMMIT_HDR

/-- `LoggedIO.write_commit`: close the current segment, open a fresh
one, append a single COMMIT frame (the code does not bump `offset`
here), close again. -/
def write_commit (io : IOSt) : IOSt :=
  let io := close_segment io
  let io := get_write_fd_nn io
  let io := fdWrite io (le32 (mask32 (crc32With 0 COMMIT_HDR)) ++ COMMIT_HDR)
  close_segment io

/-- `LoggedIO.cleanup(transaction_id)`: delete segments above the
transaction id and reset the next write segment. -/
def ioCleanup (io : IOSt) (transaction_id : Nat) : IOSt :=
  { io with
    segment := transaction_id + 1
    files := io.files.filter (fun f => f.1 ≤ transaction_id) }

/-- `LoggedIO.delete_segment`. -/
def delete_segment (io : IOSt) (segment : Nat) : IOSt :=
  { io with files := alDel io.files segment }

/-- `LoggedIO.segment_exists`. -/
def segment_exists (io : IOSt) (segment : Nat) : Bool :=
  (alGet io.files segment).isSome

/-- `LoggedIO.segment_size` (`os.path.getsize`); missing file raises. -/
def segment_size (io : IOSt) (segment : Nat) : Except Err Nat :=
  match alGet io.files segment with
  | none => .error .osError
  | some f => .ok f.length

/-- `LoggedIO.get_latest_segment`. -/
def get_latest_segment (io : IOSt) : Option Nat :=
  match sortDesc (io.files.map (fun f => f.1)) with
  | [] => none
  | s :: _ => some s

/-! ### Frame decoding (`LoggedIO._read`, `iter_objects`, `read`) -/

/-- One decoded log entry as yielded by `iter_objects`: `key = []`
models Python's `None` for COMMIT entries; `data` is only meaningful
when decoding with `read_data=True`. -/
structure Obj where
  tag : Nat
  key : List Nat
  offset : Nat
  data : List Nat
  size : Nat
deriving DecidableEq, Repr

/-- `_read` with `fmt = header_fmt` (9-byte header), acceptable tags
`(TAG_PUT, TAG_DELETE, TAG_COMMIT)`, as called from `iter_objects`.
Checks occur in source order: header unpack, size bounds, (short read,
CRC when `read_data`), tag admissibility.  Returns
`(size, tag, key, data)`. -/
def readRecord9 (file : List Nat) (offset : Nat) (readData : Bool) :
    Except Err (Nat × Nat × List Nat × List Nat) :=
  let header := (file.drop offset).take 9
  if header.length ≠ 9 then .error .integrityError
  else
    let crc := fromLE32 (header.take 4)
    let size := fromLE32 ((header.drop 4).take 4)
    let tag := header.getD 8 0
    if MAX_OBJECT_SIZE < size ∨ size < 9 then .error .integrityError
    else
      if readData then
        let data := ((file.drop offset).drop 9).take (size - 9)
        if data.length ≠ size - 9 then .error .integrityError
        else if mask32 (crc32With (crc32With 0 (header.drop 4)) data) ≠ crc then
          .error .integrityError
        else
          let kd := if tag = TAG_PUT ∨ tag = TAG_DELETE then
            (data.take 32, data.drop 32) else ([], data)
          if tag = TAG_PUT ∨ tag = TAG_DELETE ∨ tag = TAG_COMMIT then
            .ok (size, tag, kd.1, kd.2)
          else .error .integrityError
      else
        if tag = TAG_PUT ∨ tag = TAG_DELETE then
          let key := ((file.drop offset).drop 9).take 32
          if key.length ≠ 32 then .error .integrityError
          else if tag = TAG_PUT ∨ tag = TAG_DELETE ∨ tag = TAG_COMMIT then
            .ok (size, tag, key, [])
          else .error .integrityError
        else if tag = TAG_PUT ∨ tag = TAG_DELETE ∨ tag = TAG_COMMIT then
          .ok (size, tag, [], [])
        else .error .integrityError

/-- The decoding loop of `iter_objects`, fuelled (offset advances by
`size ≥ 9` each step, so `file.length + 1` fuel always suffices; a
fuel-out is a model artifact that cannot occur from `iter_objects`).
The loop stops when `fd.read` returns empty, i.e.
`offset ≥ file.length`. -/
def iterLoop (readData : Bool) (file : List Nat) : Nat → Nat → Except Err (List Obj)
  | 0, offset => if offset < file.length then .error .fuelOut else .ok []
  | fuel + 1, offset =>
    if offset < file.length then
      match readRecord9 file offset readData with
      | .error e => .error e
      | .ok (size, tag, key, data) =>
        match iterLoop readData file fuel (offset + size) with
        | .error e => .error e
        | .ok rest => .ok (⟨tag, key, offset, data, size⟩ :: rest)
    else .ok []

/-- `LoggedIO.iter_objects(segment)` over a segment file's bytes:
check the 8-byte magic, then decode frames from offset 8.  The
`include_data` flag only selects which component call sites use, so the
model always carries both `data` and `size` in `Obj`. -/
def iter_objects (readData : Bool) (file : List Nat) : Except Err (List Obj) :=
  if file.take 8 ≠ MAGIC then .error .integrityError
  else iterLoop readData file (file.length + 1) 8

/-- The `seen_commit` loop of `is_committed_segment`. -/
def scanCommitAux (seen : Bool) : List Obj → Bool
  | [] => seen
  | o :: rest =>
    if o.tag = TAG_COMMIT then scanCommitAux true rest
    else if seen then false
    else scanCommitAux seen rest

/-- `LoggedIO.is_committed_segment(segment)`: the last 9 bytes of the
file must equal the canonical COMMIT frame (a file below 9 bytes makes
the `seek(-9, SEEK_END)` fail with EINVAL, returning `False`), and the
frame iteration must succeed, see at least one COMMIT, and see no
non-COMMIT entry after a COMMIT. -/
def is_committed_segment (file : List Nat) : Bool :=
  if file.length < 9 then false
  else if lastBytes 9 file ≠ COMMIT_BYTES then false
  else
    match iter_objects true file with
    | .error _ => false
    | .ok objs => scanCommitAux false objs

/-- Helper for `get_segments_transaction_id`: first committed segment
id in the (descending-sorted) id list.  Ids always name existing files
since they come from the directory listing. -/
def findCommittedDesc (io : IOSt) : List Nat → Option Nat
  | [] => none
  | s :: rest =>
    match alGet io.files s with
    | some f => if is_committed_segment f then some s else findCommittedDesc io rest
    | none => findCommittedDesc io rest

/-- `LoggedIO.get_segments_transaction_id`: the last committed segment. -/
def get_segments_transaction_id (io : IOSt) : Option Nat :=
  findCommittedDesc io (sortDesc (io.files.map (fun f => f.1)))

/-- `_read` with `fmt = put_header_fmt` (41-byte header including the
32-byte key), acceptable tags `(TAG_PUT,)`, as called from
`LoggedIO.read`.  Returns `(size, tag, key, data)`. -/
def readRecordPut (file : List Nat) (offset : Nat) (readData : Bool) :
    Except Err (Nat × Nat × List Nat × List Nat) :=
  let header := (file.drop offset).take 41
  if header.length ≠ 41 then .error .integrityError
  else
    let crc := fromLE32 (header.take 4)
    let size := fromLE32 ((header.drop 4).take 4)
    let tag := header.getD 8 0
    let key := header.drop 9
    if MAX_OBJECT_SIZE < size ∨ size < 41 then .error .integrityError
    else
      if readData then
        let data := ((file.drop offset).drop 41).take (size - 41)
        if data.length ≠ size - 41 then .error .integrityError
        else if mask32 (crc32With (crc32With 0 (header.drop 4)) data) ≠ crc then
          .error .integrityError
        else if tag = TAG_PUT then .ok (size, tag, key, data)
        else .error .integrityError
      else
        if tag = TAG_PUT then .ok (size, tag, key, [])
        else .error .integrityError

/-- `LoggedIO.read(segment, offset, id)` with `read_data=True`:
random-access read of a PUT frame, returning its value.  (When the
requested segment is the open write segment the code syncs the writer
first; writes are immediately visible in the model.) -/
def ioReadData (io : IOSt) (segment offset : Nat) (id : List Nat) :
    Except Err (List Nat) :=
  match alGet io.files segment with
  | none => .error .fileNotFound
  | some f =>
    match readRecordPut f offset true with
    | .error e => .error e
    | .ok (_, _, key, data) =>
      if id ≠ key then .error .integrityError else .ok data

/-- `LoggedIO.read(segment, offset, id, read_data=False)`: returns the
frame's size; CRC checks are skipped. -/
def ioReadSize (io : IOSt) (segment offset : Nat) (id : List Nat) :
    Except Err Nat :=
  match alGet io.files segment with
  | none => .error .fileNotFound
  | some f =>
    match readRecordPut f offset false with
    | .error e => .error e
    | .ok (size, _, key, _) =>
      if id ≠ key then .error .integrityError else .ok size

/-- The byte-walk of `recover_segment`, fuelled (each step drops at
least one byte, so `data.length + 1` fuel always suffices): at each
position unpack a 9-byte header; if `size` is within
`[header_size, len(data)]` and the CRC over `data[4:size]` matches,
emit `data[:size]` and advance by `size`, else advance by one byte. -/
def recoverWalk : Nat → List Nat → List Nat
  | 0, _ => []
  | fuel + 1, data =>
    if data.length < 9 then []
    else
      let crc := fromLE32 (data.take 4)
      let size := fromLE32 ((data.drop 4).take 4)
      if size < 9 ∨ data.length < size then recoverWalk fuel (data.drop 1)
      else if mask32 (crc32With 0 ((data.take size).drop 4)) ≠ crc then
        recoverWalk fuel (data.drop 1)
      else data.take size ++ recoverWalk fuel (data.drop size)

/-- `LoggedIO.recover_segment(segment, filename)` as a function of the
original file contents: the first component is the rewritten file
(magic plus the frames selected by the byte-walk over the whole
original contents, magic included), the second is what is preserved
under `<filename>.beforerecover`. -/
def recover_segment (orig : List Nat) : List Nat × List Nat :=
  (MAGIC ++ recoverWalk (orig.length + 1) orig, orig)

/-! ### Repository state -/

/-- Payload of a `hints.<N>` file.  Version 1 stores a *set* of
segments whose sparse info must be rebuilt; version 2 stores the
`compact` map itself; every other version raises `ValueError`. -/
inductive Hints
  | v1 (segments : List (Nat × Int)) (compactSet : List Nat)
  | v2 (segments : List (Nat × Int)) (compact : List (Nat × Int))
  | other (version : Nat)
deriving DecidableEq, Repr

/-- The `NSIndex` map: 32-byte key to `(segment, offset)`. -/
abbrev IndexMap := List (List Nat × (Nat × Nat))

def ixGet (m : IndexMap) (k : List Nat) : Option (Nat × Nat) :=
  match m with
  | [] => none
  | (k', v) :: rest => if k' = k then some v else ixGet rest k

def ixSet (m : IndexMap) (k : List Nat) (v : Nat × Nat) : IndexMap :=
  match m with
  | [] => [(k, v)]
  | (k', v') :: rest => if k' = k then (k, v) :: rest else (k', v') :: ixSet rest k v

def ixDel (m : IndexMap) (k : List Nat) : IndexMap :=
  match m with
  | [] => []
  | (k', v') :: rest => if k' = k then rest else (k', v') :: ixDel rest k

/-- The state of a `Repository`: its `LoggedIO`, the in-memory working
maps (`self.index` is `None` outside a materialized transaction;
`segments` counts live entries per segment; `compact` counts freeable
bytes), plus the auxiliary files on disk.  An `index.<N>` entry of
`none` models a zero-length file (whose `NSIndex.read` fails).
`sideFiles` holds `<segment>.beforerecover` copies. -/
structure RepoState where
  io : IOSt
  index : Option IndexMap
  segments : List (Nat × Int)
  compact : List (Nat × Int)
  idxFiles : List (Nat × Option IndexMap)
  hintsFiles : List (Nat × Hints)
  sideFiles : List (Nat × List Nat)
  activeTxn : Bool
  appendOnly : Bool
deriving DecidableEq, Repr

/-- Result of a repository operation: Python exceptions carry the
by-then mutated state. -/
inductive Res (α : Type)
  | ok (a : α) (st : RepoState)
  | err (e : Err) (st : RepoState)
deriving DecidableEq, Repr

/-- `Repository.rollback`. -/
def rollback (st : RepoState) : RepoState :=
  { st with index := none, activeTxn := false }

/-- `Repository.get_index_transaction_id`: the highest `index.<N>`
whose file size is non-zero (`sorted(...)[-1]`). -/
def get_index_transaction_id (st : RepoState) : Option Nat :=
  match sortDesc (((st.idxFiles.filter (fun f => f.2.isSome)).map (fun f => f.1))) with
  | [] => none
  | n :: _ => some n

/-- One entry of the `_update_index` loop.  The whole supersession
`try` block catches `KeyError`, so a missing `segments[s]` after the
`compact[s] += size` update is silently ignored (Python leaves the
`compact` increment in place). -/
def update_index_obj (report : Bool) (segment : Nat) (o : Obj) (ef : Bool)
    (st : RepoState) : Res Bool :=
  if o.tag = TAG_PUT then
    match st.index with
    | none => .err .typeError st
    | some ix =>
      let st :=
        match ixGet ix o.key with
        | none => st
        | some (s, _) =>
          let st := { st with compact := alAdd st.compact s (o.size : Int) }
          match alGet st.segments s with
          | none => st
          | some c => { st with segments := alSet st.segments s (c - 1) }
      let st := { st with index := some (ixSet ix o.key (segment, o.offset)) }
      match alGet st.segments segment with
      | none => .err .keyError st
      | some c => .ok ef { st with segments := alSet st.segments segment (c + 1) }
  else if o.tag = TAG_DELETE then
    match st.index with
    | none => .err .attributeError st
    | some ix =>
      match ixGet ix o.key with
      | none => .ok ef st
      | some (s, offset) =>
        let st := { st with index := some (ixDel ix o.key) }
        if segment_exists st.io s then
          match alGet st.segments s with
          | none => .err .keyError st
          | some c =>
            let st := { st with segments := alSet st.segments s (c - 1) }
            match ioReadSize st.io s offset o.key with
            | .error e => .err e st
            | .ok size => .ok ef { st with compact := alAdd st.compact s (size : Int) }
        else .ok ef st
  else if o.tag = TAG_COMMIT then .ok ef st
  else if report then .ok true st
  else .err .checkNeeded st

def update_index_objs (report : Bool) (segment : Nat) :
    List Obj → Bool → RepoState → Res Bool
  | [], ef, st => .ok ef st
  | o :: rest, ef, st =>
    match update_index_obj report segment o ef st with
    | .err e st => .err e st
    | .ok ef st => update_index_objs report segment rest ef st

/-- `Repository._update_index(segment, objects, report)`: `report`
models passing the `report_error` callback; the returned flag is
whether it was invoked. -/
def update_index (report : Bool) (segment : Nat) (objs : List Obj)
    (st : RepoState) : Res Bool :=
  let st := { st with segments := alSet st.segments segment 0 }
  match update_index_objs report segment objs false st with
  | .err e st => .err e st
  | .ok ef st =>
    match alGet st.segments segment with
    | none => .err .keyError st
    | some c =>
      if c = 0 then
        match segment_size st.io segment with
        | .error e => .err e st
        | .ok n => .ok ef { st with compact := alAdd st.compact segment (n : Int) }
      else .ok ef st

/-- The frame loop of `_rebuild_sparse` (pure over `compact`). -/
def rebuild_sparse_objs (segment : Nat) (ix : IndexMap) (objs : List Obj)
    (compact : List (Nat × Int)) : List (Nat × Int) :=
  objs.foldl (fun compact o =>
    if o.tag = TAG_PUT then
      if ixGet ix o.key ≠ some (segment, o.offset) then
        alAdd compact segment (o.size : Int)
      else compact
    else if o.tag = TAG_DELETE then alAdd compact segment (o.size : Int)
    else compact) compact

/-- `Repository._rebuild_sparse(segment)`. -/
def rebuild_sparse (segment : Nat) (st : RepoState) : Res Unit :=
  let st := { st with compact := alSet st.compact segment 0 }
  match alGet st.segments segment with
  | none => .err .keyError st
  | some c =>
    if c = 0 then
      match segment_size st.io segment with
      | .error e => .err e st
      | .ok n => .ok () { st with compact := alAdd st.compact segment (n : Int) }
    else
      match st.index with
      | none => .err .attributeError st
      | some ix =>
        match alGet st.io.files segment with
        | none => .err .fileNotFound st
        | some f =>
          match iter_objects false f with
          | .error e => .err e st
          | .ok objs => .ok () { st with compact := rebuild_sparse_objs segment ix objs st.compact }

def rebuild_sparse_list : List Nat → RepoState → Res Unit
  | [], st => .ok () st
  | s :: rest, st =>
    match rebuild_sparse s st with
    | .err e st => .err e st
    | .ok () st => rebuild_sparse_list rest st

/-- Filesystem events of `Repository.write_index`, in program order. -/
inductive FsEv
  | writeHintsTmp (txid : Nat)
  | fsyncHintsTmp (txid : Nat)
  | renameHints (txid : Nat)
  | writeIndexTmp
  | renameIndex (txid : Nat)
  | appendTransactionsLog (txid : Nat)
  | unlinkIndexFile (n : Nat)
  | unlinkHintsFile (n : Nat)
deriving DecidableEq, Repr

/-- `Repository.write_index`: write and fsync `hints.<txid>.tmp`,
rename it; write `index.tmp`, rename it; append to the `transactions`
log when append-only; unlink every `index.*`/`hints.*` whose suffix is
not `txid`; drop the in-memory index.  Returns the event trace.  The
transaction id comes from `get_segments_transaction_id`; `None` makes
the `'hints.%d' % transaction_id` formatting raise `TypeError`. -/
def write_index (st : RepoState) : Res (List FsEv) :=
  match get_segments_transaction_id st.io with
  | none => .err .typeError st
  | some tid =>
    let st1 := { st with hintsFiles := alSet st.hintsFiles tid (Hints.v2 st.segments st.compact) }
    match st1.index with
    | none => .err .attributeError st1
    | some ix =>
      let st2 := { st1 with idxFiles := alSet st1.idxFiles tid (some ix) }
      let oldIdx := ((st2.idxFiles.map (fun f => f.1)).filter (fun n => n ≠ tid))
      let oldHints := ((st2.hintsFiles.map (fun f => f.1)).filter (fun n => n ≠ tid))
      .ok ([FsEv.writeHintsTmp tid, FsEv.fsyncHintsTmp tid, FsEv.renameHints tid,
            FsEv.writeIndexTmp, FsEv.renameIndex tid]
           ++ (if st.appendOnly then [FsEv.appendTransactionsLog tid] else [])
           ++ oldIdx.map FsEv.unlinkIndexFile ++ oldHints.map FsEv.unlinkHintsFile)
        { st2 with
          idxFiles := st2.idxFiles.filter (fun f => f.1 = tid)
          hintsFiles := st2.hintsFiles.filter (fun f => f.1 = tid)
          index := none }

/-- The per-unused-segment loop of `complete_xfer`:
`assert self.segments.pop(segment) == 0`, delete the segment file,
`del self.compact[segment]`. -/
def complete_xfer_loop : List Nat → RepoState → Res Unit
  | [], st => .ok () st
  | seg :: rest, st =>
    match alGet st.segments seg with
    | none => .err .keyError st
    | some c =>
      let st := { st with segments := alDel st.segments seg }
      if c ≠ 0 then .err .assertionError st
      else
        let st := { st with io := delete_segment st.io seg }
        match alGet st.compact seg with
        | none => .err .keyError st
        | some _ => complete_xfer_loop rest { st with compact := alDel st.compact seg }

/-- `complete_xfer` inside `compact_segments`: commit the copied data,
then drop the now-unused source segments. -/
def complete_xfer (unused : List Nat) (st : RepoState) : Res Unit :=
  complete_xfer_loop unused { st with io := write_commit st.io }

/-- The body run for each frame during compaction of `segment`
(`self.compact` loop of `compact_segments`).  `unused` is reset to `[]`
whenever `complete_xfer` runs (its `nonlocal` reassignment). -/
def compact_objs (save_space : Bool) (itx : Option Nat) (segment : Nat) :
    List Obj → List Nat → RepoState → Res (List Nat)
  | [], unused, st => .ok unused st
  | o :: rest, unused, st =>
    if o.tag = TAG_PUT then
      match st.index with
      | none => .err .attributeError st
      | some ix =>
        if ixGet ix o.key = some (segment, o.offset) then
          match ((match write_put o.key o.data save_space st.io with
                 | .error .segmentFull =>
                   match complete_xfer unused st with
                   | .err e st => .err e st
                   | .ok () st =>
                     match write_put o.key o.data false st.io with
                     | .error e => .err e st
                     | .ok (io, ns, noff) => .ok (ns, noff, ([] : List Nat)) { st with io := io }
                 | .error e => .err e st
                 | .ok (io, ns, noff) => .ok (ns, noff, unused) { st with io := io })
                : Res (Nat × Nat × List Nat)) with
          | .err e st => .err e st
          | .ok (ns, noff, unused) st =>
            match st.index with
            | none => .err .typeError st
            | some ix2 =>
              let st := { st with index := some (ixSet ix2 o.key (ns, noff)) }
              let st := { st with segments := alSetdefault st.segments ns 0 }
              match alGet st.segments ns with
              | none => .err .keyError st
              | some c =>
                let st := { st with segments := alSet st.segments ns (c + 1) }
                match alGet st.segments segment with
                | none => .err .keyError st
                | some c2 =>
                  compact_objs save_space itx segment rest unused
                    { st with segments := alSet st.segments segment (c2 - 1) }
        else compact_objs save_space itx segment rest unused st
    else if o.tag = TAG_DELETE then
      if (match itx with | none => true | some i => decide (i < segment)) = true then
        match ((match write_delete o.key save_space st.io with
               | .error .segmentFull =>
                 match complete_xfer unused st with
                 | .err e st => .err e st
                 | .ok () st =>
                   match write_delete o.key false st.io with
                   | .error e => .err e st
                   | .ok (io, _, _) => .ok ([] : List Nat) { st with io := io }
               | .error e => .err e st
               | .ok (io, _, _) => .ok unused { st with io := io }) : Res (List Nat)) with
        | .err e st => .err e st
        | .ok unused st => compact_objs save_space itx segment rest unused st
      else compact_objs save_space itx segment rest unused st
    else compact_objs save_space itx segment rest unused st

/-- The outer loop of `compact_segments` over the snapshot of
`sorted(self.compact.items())`. -/
def compact_loop (save_space : Bool) (itx : Option Nat) :
    List (Nat × Int) → List Nat → RepoState → Res (List Nat)
  | [], unused, st => .ok unused st
  | (segment, freeable) :: rest, unused, st =>
    if segment_exists st.io segment = false then
      match alGet st.compact segment with
      | none => .err .keyError st
      | some _ =>
        compact_loop save_space itx rest unused { st with compact := alDel st.compact segment }
    else
      match segment_size st.io segment with
      | .error e => .err e st
      | .ok ssize =>
        if 5 * ssize > st.io.limit ∧ 20 * freeable < 3 * (ssize : Int) then
          compact_loop save_space itx rest unused st
        else
          let st := { st with segments := alSetdefault st.segments segment 0 }
          match alGet st.io.files segment with
          | none => .err .fileNotFound st
          | some f =>
            match iter_objects true f with
            | .error e => .err e st
            | .ok objs =>
              match compact_objs save_space itx segment objs unused st with
              | .err e st => .err e st
              | .ok unused st =>
                match alGet st.segments segment with
                | none => .err .keyError st
                | some c =>
                  if c ≠ 0 then .err .assertionError st
                  else compact_loop save_space itx rest (unused ++ [segment]) st

/-- `Repository.compact_segments(save_space)`.  The 0.2/0.15 float
heuristic is modelled by the exact rational comparison
`5*size > max_segment_size ∧ 20*freeable < 3*size`. -/
def compact_segments (save_space : Bool) (st : RepoState) : Res Unit :=
  if st.compact.isEmpty then .ok () st
  else
    let itx := get_index_transaction_id st
    let snapshot := (sortAsc (st.compact.map (fun f => f.1))).filterMap
      (fun s => (alGet st.compact s).map (fun v => (s, v)))
    match compact_loop save_space itx snapshot [] st with
    | .err e st => .err e st
    | .ok unused st => complete_xfer unused st

/-- `Repository.commit(save_space)`: write the COMMIT, compact unless
append-only, snapshot the index, roll back the in-memory state. -/
def commit (save_space : Bool) (st : RepoState) : Res Unit :=
  let st := { st with io := write_commit st.io }
  match ((if st.appendOnly then .ok () st else compact_segments save_space st) : Res Unit) with
  | .err e st => .err e st
  | .ok () st =>
    match write_index st with
    | .err e st => .err e st
    | .ok _ st => .ok () (rollback st)

/-- The decision made by `Repository.check_transaction` from
`index_transaction_id` and `segments_transaction_id`. -/
inductive TxAction
  | checkNeeded
  | noAction
  | replay (replay_from : Option Nat) (to_tid : Nat)
deriving DecidableEq, Repr

/-- The branch structure of `check_transaction` (lines 188-200): raise
`CheckNeeded` when an index transaction exists without any committed
segment; replay (from scratch when the index is ahead) whenever the two
ids differ. -/
def check_transaction_action : Option Nat → Option Nat → TxAction
  | some _, none => .checkNeeded
  | none, none => .noAction
  | none, some s => .replay none s
  | some i, some s =>
    if i = s then .noAction
    else if i > s then .replay none s
    else .replay (some i) s

/-- The segment loop of `replay_segments`: skip segments at or below
the index txid, stop past the segments txid, feed the rest through
`_update_index`. -/
def replay_loop (itx : Option Nat) (stx : Nat) : List Nat → RepoState → Res Unit
  | [], st => .ok () st
  | seg :: rest, st =>
    if (match itx with | some i => decide (seg ≤ i) | none => false) = true then
      replay_loop itx stx rest st
    else if seg > stx then .ok () st
    else
      match alGet st.io.files seg with
      | none => .err .fileNotFound st
      | some f =>
        match iter_objects true f with
        | .error e => .err e st
        | .ok objs =>
          match update_index false seg objs st with
          | .err e st => .err e st
          | .ok _ st => replay_loop itx stx rest st

mutual

/-- `Repository.open_index(transaction_id, auto_recover)`: read the
`index.<N>` snapshot; a zero-size file raises
`RuntimeError('hashindex_read failed')`, upon which the file is
unlinked and (when auto-recovering) the repository is rebuilt via
`prepare_txn` + `commit`. -/
def open_index : Nat → Option Nat → Bool → RepoState → Res IndexMap
  | 0, _, _, st => .err .fuelOut st
  | fuel + 1, tid, autoRecover, st =>
    match tid with
    | none => .ok [] st
    | some t =>
      match alGet st.idxFiles t with
      | some (some m) => .ok m st
      | some none =>
        let st1 := { st with idxFiles := alDel st.idxFiles t }
        if autoRecover = false then .err .runtimeError st1
        else
          match get_transaction_id fuel st1 with
          | .err e st => .err e st
          | .ok tid1 st2 =>
            match prepare_txn fuel tid1 true st2 with
            | .err e st => .err e st
            | .ok () st3 =>
              match commit false st3 with
              | .err e st => .err e st
              | .ok () st4 =>
                match get_transaction_id fuel st4 with
                | .err e st => .err e st
                | .ok tid2 st5 => open_index fuel tid2 true st5
      | none => .err .internalOSError st

/-- `Repository.get_transaction_id`. -/
def get_transaction_id : Nat → RepoState → Res (Option Nat)
  | 0, st => .err .fuelOut st
  | fuel + 1, st =>
    match check_transaction fuel st with
    | .err e st => .err e st
    | .ok () st => .ok (get_index_transaction_id st) st

/-- `Repository.check_transaction`: compute both transaction ids and
execute the decided action. -/
def check_transaction : Nat → RepoState → Res Unit
  | 0, st => .err .fuelOut st
  | fuel + 1, st =>
    match check_transaction_action (get_index_transaction_id st)
        (get_segments_transaction_id st.io) with
    | .checkNeeded => .err .checkNeeded st
    | .noAction => .ok () st
    | .replay rf to_tid => replay_segments fuel rf to_tid st

/-- `Repository.replay_segments(index_transaction_id,
segments_transaction_id)`; `rollback` runs in the `finally` block on
both the success and the exception path. -/
def replay_segments : Nat → Option Nat → Nat → RepoState → Res Unit
  | 0, _, _, st => .err .fuelOut st
  | fuel + 1, itx, stx, st =>
    match prepare_txn fuel itx false st with
    | .err e st => .err e st
    | .ok () st =>
      match replay_loop itx stx (sortAsc (st.io.files.map (fun f => f.1))) st with
      | .err e st => .err e (rollback st)
      | .ok () st =>
        match write_index st with
        | .err e st => .err e (rollback st)
        | .ok _ st => .ok () (rollback st)

/-- `Repository.prepare_txn(transaction_id, do_cleanup)` (the lock
upgrade has no observable effect in the model).  `not self.index` is
Python truthiness: `None` or an empty index triggers a (re)load.  A
missing hints file unlinks the index snapshot and recurses after
`check_transaction`; a hints version other than 1 or 2 raises
`ValueError`; version 1 rebuilds the sparse info per segment. -/
def prepare_txn : Nat → Option Nat → Bool → RepoState → Res Unit
  | 0, _, _, st => .err .fuelOut st
  | fuel + 1, tid, do_cleanup, st =>
    let st := { st with activeTxn := true }
    match ((if (match st.index with | none => true | some m => m.isEmpty) || tid.isNone then
             match open_index fuel tid false st with
             | .err .runtimeError st1 =>
               match check_transaction fuel st1 with
               | .err e st => .err e st
               | .ok () st2 =>
                 match open_index fuel tid false st2 with
                 | .err e st => .err e st
                 | .ok m st3 => .ok () { st3 with index := some m }
             | .err e st1 => .err e st1
             | .ok m st1 => .ok () { st1 with index := some m }
           else .ok () st) : Res Unit) with
    | .err e st => .err e st
    | .ok () st =>
      match tid with
      | none => .ok () { st with segments := [], compact := [] }
      | some t =>
        let st := if do_cleanup then { st with io := ioCleanup st.io t } else st
        match alGet st.hintsFiles t with
        | none =>
          match alGet st.idxFiles t with
          | none => .err .osError st
          | some _ =>
            let st := { st with idxFiles := alDel st.idxFiles t }
            match check_transaction fuel st with
            | .err e st => .err e st
            | .ok () st => prepare_txn fuel (some t) true st
        | some (Hints.other _) => .err .valueError st
        | some (Hints.v1 segs cset) =>
          let st := { st with segments := segs, compact := [] }
          rebuild_sparse_list (sortAsc cset) st
        | some (Hints.v2 segs comp) =>
          .ok () { st with segments := segs, compact := comp }

end

/-- The tail of `Repository.put` shared by both branches: write the PUT
frame, update `segments` and the index. -/
def put_write (id data : List Nat) (st : RepoState) : Res Unit :=
  match st.index with
  | none => .err .typeError st
  | some ix =>
    match write_put id data false st.io with
    | .error e => .err e st
    | .ok (io, nseg, noff) =>
      let st := { st with io := io }
      let st := { st with segments := alSetdefault st.segments nseg 0 }
      match alGet st.segments nseg with
      | none => .err .keyError st
      | some c =>
        .ok () { st with segments := alSet st.segments nseg (c + 1),
                         index := some (ixSet ix id (nseg, noff)) }

/-- `Repository.put(id, data)`: prepare a transaction when none is
active; for an existing key decrement the old segment's live count, add
the old frame's size to `compact`, write a DELETE frame and account it;
then write the PUT and update the index. -/
def put (fuel : Nat) (id data : List Nat) (st : RepoState) : Res Unit :=
  match ((if st.activeTxn = false then
           match get_transaction_id fuel st with
           | .err e st => .err e st
           | .ok tid st => prepare_txn fuel tid true st
         else .ok () st) : Res Unit) with
  | .err e st => .err e st
  | .ok () st =>
    match st.index with
    | none => .err .typeError st
    | some ix =>
      match ixGet ix id with
      | none => put_write id data st
      | some (oseg, ooff) =>
        match alGet st.segments oseg with
        | none => .err .keyError st
        | some c =>
          let st := { st with segments := alSet st.segments oseg (c - 1) }
          match ioReadSize st.io oseg ooff id with
          | .error e => .err e st
          | .ok size =>
            let st := { st with compact := alAdd st.compact oseg (size : Int) }
            match write_delete id false st.io with
            | .error e => .err e st
            | .ok (io, dseg, dsize) =>
              let st := { st with io := io }
              let st := { st with compact := alAdd st.compact dseg (dsize : Int) }
              put_write id data { st with segments := alSetdefault st.segments dseg 0 }

/-- `Repository.get(id)`: reload the index from disk when absent (or
empty, by Python truthiness), then a random read through the index;
a missing key raises `ObjectNotFound`. -/
def repoGet (fuel : Nat) (id : List Nat) (st : RepoState) : Res (List Nat) :=
  match ((if (match st.index with | none => true | some m => m.isEmpty) then
           match get_transaction_id fuel st with
           | .err e st => .err e st
           | .ok tid st =>
             match open_index fuel tid true st with
             | .err e st => .err e st
             | .ok m st => .ok () { st with index := some m }
         else .ok () st) : Res Unit) with
  | .err e st => .err e st
  | .ok () st =>
    match st.index with
    | none => .err .typeError st
    | some ix =>
      match ixGet ix id with
      | none => .err .objectNotFound st
      | some (seg, off) =>
        match ioReadData st.io seg off id with
        | .error e => .err e st
        | .ok data => .ok data st

/-- Obtaining the objects of one segment during `check`: an
`IntegrityError` from `iter_objects` is reported; with `repair` the
segment is rewritten by `recover_segment` (keeping the original under
`.beforerecover`) and re-iterated, otherwise the segment contributes no
objects.  The second component is whether an error was reported. -/
def check_get_objects (repair : Bool) (seg : Nat) (st : RepoState) :
    Res (List Obj × Bool) :=
  match alGet st.io.files seg with
  | none => .err .fileNotFound st
  | some f =>
    match iter_objects true f with
    | .ok objs => .ok (objs, false) st
    | .error .fuelOut => .err .fuelOut st
    | .error _ =>
      if repair then
        let rs := recover_segment f
        let st := { st with io := { st.io with files := alSet st.io.files seg rs.1 },
                            sideFiles := alSet st.sideFiles seg rs.2 }
        match iter_objects true rs.1 with
        | .error e => .err e st
        | .ok objs => .ok (objs, true) st
      else .ok ([], true) st

/-- The segment scan of `Repository.check`: segments above the chosen
transaction id are skipped; each other segment is decoded (with
recovery under `repair`) and folded into the fresh index via
`_update_index(report_error)`. -/
def check_scan (repair : Bool) (tid : Option Nat) :
    List Nat → Bool → RepoState → Res Bool
  | [], ef, st => .ok ef st
  | seg :: rest, ef, st =>
    match tid with
    | none => .err .typeError st
    | some t =>
      if seg > t then check_scan repair tid rest ef st
      else
        match check_get_objects repair seg st with
        | .err e st => .err e st
        | .ok (objs, reported) st =>
          match update_index true seg objs st with
          | .err e st => .err e st
          | .ok rep2 st => check_scan repair tid rest (ef || reported || rep2) st

/-- The index comparison at the end of `check` (only reached when a
persisted index was loaded, is non-empty, and `repair` is off). -/
def check_compare (cur : IndexMap) (rebuilt : IndexMap) (ef : Bool) : Bool :=
  if cur.length ≠ rebuilt.length then true
  else rebuilt.foldl (fun ef kv => if ixGet cur kv.1 ≠ some kv.2 then true else ef) ef

/-- `Repository.check` after the initial `transaction_id` /
`current_index` determination: apply the `None` fallbacks, clean up
(repair), scan all segments, optionally synthesize a COMMIT, compare
against the persisted index, and finalize (compact + snapshot) when
repairing.  Returns `error_found`. -/
def check_after_txn (repair save_space : Bool) (fuel : Nat) (tid0 : Option Nat)
    (cur : Option IndexMap) (st : RepoState) : Res Bool :=
  let tid1 := match tid0 with | none => get_index_transaction_id st | some t => some t
  let tid2 := match tid1 with | none => get_latest_segment st.io | some t => some t
  match ((if repair then
           match tid2 with
           | none => .err .typeError st
           | some t => .ok () { st with io := ioCleanup st.io t }
         else .ok () st) : Res Unit) with
  | .err e st => .err e st
  | .ok () st =>
    let stx := get_segments_transaction_id st.io
    match prepare_txn fuel none true st with
    | .err e st => .err e st
    | .ok () st =>
      match ((if (st.io.files.map (fun f => f.1)).isEmpty then .ok false st
             else check_scan repair tid2 (sortAsc (st.io.files.map (fun f => f.1))) false st)
            : Res Bool) with
      | .err e st => .err e st
      | .ok ef st =>
        match ((if repair ∧ stx = none then
                 match tid2 with
                 | none => .err .typeError st
                 | some t => .ok true { st with io := write_commit { st.io with segment := t + 1 } }
               else .ok ef st) : Res Bool) with
        | .err e st => .err e st
        | .ok ef st =>
          match ((if (match cur with | some m => !m.isEmpty | none => false) && !repair then
                   match st.index with
                   | none => .err .typeError st
                   | some rebuilt =>
                     .ok (check_compare (cur.getD []) rebuilt ef) st
                 else .ok ef st) : Res Bool) with
          | .err e st => .err e st
          | .ok ef st =>
            match ((if repair then
                     match compact_segments save_space st with
                     | .err e st => .err e st
                     | .ok () st =>
                       match write_index st with
                       | .err e st => .err e st
                       | .ok _ st => .ok () st
                   else .ok () st) : Res Unit) with
            | .err e st => .err e st
            | .ok () st => .ok ef (rollback st)

/-- `Repository.check(repair, save_space)` up to the final return
expression: yields `error_found`.  The opening `try` catches every
exception (`except Exception`) from `get_transaction_id` /
`open_index`, falling back to the segments transaction id with no
loaded index (`fuelOut` is a model artifact and is never caught). -/
def check_core (repair save_space : Bool) (fuel : Nat) (st : RepoState) : Res Bool :=
  if st.appendOnly ∧ repair then .err .valueError st
  else if st.activeTxn then .err .assertionError st
  else
    match ((match get_transaction_id fuel st with
           | .err e st => .err e st
           | .ok tid st =>
             match open_index fuel tid true st with
             | .err e st => .err e st
             | .ok m st => .ok (tid, m) st) : Res (Option Nat × IndexMap)) with
    | .err .fuelOut st => .err .fuelOut st
    | .err _ st => check_after_txn repair save_space fuel
        (get_segments_transaction_id st.io) none st
    | .ok (tid, m) st => check_after_txn repair save_space fuel tid (some m) st

/-- `Repository.check`: `return not error_found or repair`. -/
def check (repair save_space : Bool) (fuel : Nat) (st : RepoState) : Res Bool :=
  match check_core repair save_space fuel st with
  | .err e st => .err e st
  | .ok ef st => .ok (!ef || repair) st


/-! ### Derived notions used by the statements -/

/-- The segment ids present on disk. -/
def segIds (io : IOSt) : List Nat := io.files.map (fun f => f.1)

/-- Whether segment `s` exists and is committed. -/
def segCommitted (io : IOSt) (s : Nat) : Bool :=
  match alGet io.files s with
  | some f => is_committed_segment f
  | none => false

/-- The ids of the `index.<N>` files with non-zero size. -/
def idxNonzeroIds (st : RepoState) : List Nat :=
  (st.idxFiles.filter (fun f => f.2.isSome)).map (fun f => f.1)

/-- Concrete inputs used by witnesses: a 32-byte key and an io state
whose open segment file is exactly at the size limit. -/
def kw9 : List Nat := List.replicate 32 5

def iow9 : IOSt := ⟨0, 10, true, 10, [(0, List.replicate 10 7)]⟩

/-- Inputs of the C3 analysis: a 32-byte key, a value of exactly
`MAX_OBJECT_SIZE` bytes (the largest the data model allows), and a
fresh io state. -/
def kC3 : List Nat := List.replicate 32 0

def bigvalC3 : List Nat := List.replicate MAX_OBJECT_SIZE 0

def ioC3 : IOSt := ⟨0, 0, false, 5242880, []⟩

def kC3w : List Nat := List.replicate 32 1

/-- The claim-side predicate of C7: no non-COMMIT entry after a COMMIT
entry (without requiring any COMMIT to exist). -/
def noNonCommitAfterCommitAux (seen : Bool) : List Obj → Bool
  | [] => true
  | o :: rest =>
    if o.tag = TAG_COMMIT then noNonCommitAfterCommitAux true rest
    else if seen then false
    else noNonCommitAfterCommitAux seen rest

def noNonCommitAfterCommit (objs : List Obj) : Bool :=
  noNonCommitAfterCommitAux false objs

/-- A segment file consisting of a single PUT frame whose *value* is
the canonical COMMIT frame bytes, so the file's last 9 bytes equal
`LoggedIO.COMMIT` without any COMMIT entry existing. -/
def kC7 : List Nat := List.replicate 32 2

def c7file : List Nat := MAGIC ++ putFrameBytes kC7 COMMIT_BYTES

/-- Modelled from the spec sentence for `recover_segment`. -/
def recoverWalkSpec : Nat → List Nat → List Nat
  | 0, _ => []
  | fuel + 1, data =>
    if data.length < 9 then []
    else
      let size := fromLE32 ((data.drop 4).take 4)
      if 9 ≤ size ∧ size ≤ data.length ∧
          mask32 (crc32With 0 ((data.take size).drop 4)) = fromLE32 (data.take 4) then
        data.take size ++ recoverWalkSpec fuel (data.drop size)
      else recoverWalkSpec fuel (data.drop 1)

/-- The frames selected by the byte-walk, as separate chunks. -/
def recoverChunks : Nat → List Nat → List (List Nat)
  | 0, _ => []
  | fuel + 1, data =>
    if data.length < 9 then []
    else
      let crc := fromLE32 (data.take 4)
      let size := fromLE32 ((data.drop 4).take 4)
      if size < 9 ∨ data.length < size then recoverChunks fuel (data.drop 1)
      else if mask32 (crc32With 0 ((data.take size).drop 4)) ≠ crc then
        recoverChunks fuel (data.drop 1)
      else data.take size :: recoverChunks fuel (data.drop size)

/-- A byte string that is a complete CRC-valid frame: at least 9 bytes,
its size field is its own length, and its leading CRC matches. -/
def validFrame (f : List Nat) : Prop :=
  9 ≤ f.length ∧ fromLE32 ((f.drop 4).take 4) = f.length ∧
    mask32 (crc32With 0 (f.drop 4)) = fromLE32 (f.take 4)

/-- Modelled from the spec sentence for `snapshot(txid)`: index first,
then hints, then the unlinks. -/
def write_index_trace_spec (tid : Nat) (oldIdx oldHints : List Nat) : List FsEv :=
  [FsEv.writeIndexTmp, FsEv.renameIndex tid,
   FsEv.writeHintsTmp tid, FsEv.fsyncHintsTmp tid, FsEv.renameHints tid]
  ++ oldIdx.map FsEv.unlinkIndexFile ++ oldHints.map FsEv.unlinkHintsFile

def stW4 : RepoState :=
  { io := ⟨2, 0, false, 5242880, [(1, MAGIC ++ COMMIT_BYTES)]⟩,
    index := some [], segments := [], compact := [],
    idxFiles := [(0, some [])], hintsFiles := [(0, Hints.v2 [] [])],
    sideFiles := [], activeTxn := true, appendOnly := false }

/-- The concrete second-commit run of C2: a fresh repository, one
`put`, one `commit` (`stC2a`, `stC2b` are the states after each). -/
def kC2 : List Nat := List.replicate 32 3

def stC2start : RepoState :=
  { io := ⟨0, 0, false, 5242880, []⟩, index := none, segments := [], compact := [],
    idxFiles := [], hintsFiles := [], sideFiles := [], activeTxn := false,
    appendOnly := false }

def stC2a : RepoState :=
  match put 10 kC2 [1, 2, 3] stC2start with
  | .ok _ st => st
  | .err _ st => st

def stC2b : RepoState :=
  match commit false stC2a with
  | .ok _ st => st
  | .err _ st => st

/-- Modelled from the claim: the unconditional tail of `put` (step 4). -/
def put_spec_new (k v : List Nat) (st : RepoState) : Res Unit :=
  match st.index with
  | none => .err .typeError st
  | some ix =>
    match write_put k v false st.io with
    | .error e => .err e st
    | .ok (io, nseg, noff) =>
      .ok () { st with io := io,
                       segments := alAdd (alSetdefault st.segments nseg 0) nseg 1,
                       index := some (ixSet ix k (nseg, noff)) }

/-- Modelled from the claim: the overwrite protocol (steps 1-3, then 4). -/
def put_spec_existing (k v : List Nat) (oseg oldSize : Nat) (st : RepoState) : Res Unit :=
  let st := { st with segments := alAdd st.segments oseg (-1),
                      compact := alAdd st.compact oseg (oldSize : Int) }
  match write_delete k false st.io with
  | .error e => .err e st
  | .ok (io, dseg, dsize) =>
    put_spec_new k v
      { st with io := io,
                compact := alAdd st.compact dseg (dsize : Int),
                segments := alSetdefault st.segments dseg 0 }

def kC6 : List Nat := List.replicate 32 4

def stC6start : RepoState :=
  { io := ⟨0, 0, false, 5242880, []⟩, index := none, segments := [], compact := [],
    idxFiles := [], hintsFiles := [], sideFiles := [], activeTxn := false,
    appendOnly := false }

def stC6a : RepoState :=
  match put 10 kC6 [7, 8] stC6start with
  | .ok _ st => st
  | .err _ st => st

def resIsOk {α : Type} : Res α → Bool
  | .ok _ _ => true
  | .err _ _ => false

def resOkVal {α : Type} : Res α → Option α
  | .ok a _ => some a
  | .err _ _ => none

def kC10 : List Nat := List.replicate 32 6

def stC10start : RepoState :=
  { io := ⟨0, 0, false, 5242880, []⟩, index := none, segments := [], compact := [],
    idxFiles := [], hintsFiles := [], sideFiles := [], activeTxn := false,
    appendOnly := false }

def stC10 : RepoState :=
  match put 10 kC10 [1, 2, 3] stC10start with
  | .err _ st => st
  | .ok _ st =>
    match commit false st with
    | .err _ st => st
    | .ok _ st => st

/-- `stC10` with one byte of the PUT frame's value flipped on disk. -/
def stC10bad : RepoState :=
  { stC10 with io := { stC10.io with
      files := alSet stC10.io.files 0 ((alGetD stC10.io.files 0 []).set 45 99) } }

/-! ### Round-trip scenario for `put`/`commit`/`get` (claim C1) -/

/-- A freshly created repository: no segment files, no index, no
transaction. -/
def stC1start : RepoState :=
  { io := ⟨0, 0, false, 5242880, []⟩, index := none, segments := [], compact := [],
    idxFiles := [], hintsFiles := [], sideFiles := [], activeTxn := false,
    appendOnly := false }

/-- The state after `put`'s implicit `prepare_txn` on `stC1start`. -/
def stC1mid : RepoState :=
  { io := ⟨0, 0, false, 5242880, []⟩, index := some [], segments := [], compact := [],
    idxFiles := [], hintsFiles := [], sideFiles := [], activeTxn := true,
    appendOnly := false }

/-- The state after `put(k, v)` on the fresh repository: one PUT frame
at `(segment 0, offset 8)`. -/
def stC1p (k v : List Nat) : RepoState :=
  { io := ⟨0, 8 + (v.length + 41), true, 5242880, [(0, MAGIC ++ putFrameBytes k v)]⟩,
    index := some [(k, (0, 8))], segments := [(0, 1)], compact := [],
    idxFiles := [], hintsFiles := [], sideFiles := [], activeTxn := true,
    appendOnly := false }

/-- The io state after the subsequent `commit`: the COMMIT frame sits
alone in segment 1. -/
def ioC1c (k v : List Nat) : IOSt :=
  ⟨2, 0, false, 5242880, [(0, MAGIC ++ putFrameBytes k v), (1, MAGIC ++ COMMIT_BYTES)]⟩

/-- The repository state just before `commit`'s `write_index`. -/
def stC1w (k v : List Nat) : RepoState :=
  { io := ioC1c k v,
    index := some [(k, (0, 8))], segments := [(0, 1)], compact := [],
    idxFiles := [], hintsFiles := [], sideFiles := [], activeTxn := true,
    appendOnly := false }

/-- The repository state after `commit` (index snapshot written,
in-memory index dropped by `rollback`). -/
def stC1c (k v : List Nat) : RepoState :=
  { io := ioC1c k v,
    index := none, segments := [(0, 1)], compact := [],
    idxFiles := [(1, some [(k, (0, 8))])], hintsFiles := [(1, Hints.v2 [(0, 1)] [])],
    sideFiles := [], activeTxn := false, appendOnly := false }

/-- The repository state after the final `get` (which reloads the index
from the snapshot). -/
def stC1g (k v : List Nat) : RepoState :=
  { io := ioC1c k v,
    index := some [(k, (0, 8))], segments := [(0, 1)], compact := [],
    idxFiles := [(1, some [(k, (0, 8))])], hintsFiles := [(1, Hints.v2 [(0, 1)] [])],
    sideFiles := [], activeTxn := false, appendOnly := false }

/-- The tail of `Repository.commit` after the COMMIT frame is written
and compaction is done (named so the reduction lemmas stay syntactic). -/
def commit_tail (r : Res (List FsEv)) : Res Unit :=
  match r with
  | .err e s2 => .err e s2
  | .ok _ s2 => .ok () (rollback s2)

/-- The tail of `Repository.get` from the index lookup on. -/
def get_tail (k : List Nat) (st : RepoState) : Res (List Nat) :=
  match st.index with
  | none => .err .typeError st
  | some ix =>
    match ixGet ix k with
    | none => .err .objectNotFound st
    | some (seg, off) =>
      match ioReadData st.io seg off k with
      | .error e => .err e st
      | .ok data => .ok data st

/-- Lifting the result of `LoggedIO.read` back into `Repository.get`. -/
def read_tail (r : Except Err (List Nat)) (st : RepoState) : Res (List Nat) :=
  match r with
  | .error e => .err e st
  | .ok data => .ok data st

/-- The rest of the `put; commit; get` scenario once `put` has run. -/
def runC1_after_commit (r : Res Unit) (k : List Nat) : Res (List Nat) :=
  match r with
  | .err e st => .err e st
  | .ok _ st => repoGet 10 k st

def runC1_after_put (r : Res Unit) (k : List Nat) : Res (List Nat) :=
  match r with
  | .err e st => .err e st
  | .ok _ st => runC1_after_commit (commit false st) k

/-- `put(k, v); commit(); get(k)` on a fresh repository, propagating any
exception. -/
def runC1 (k v : List Nat) : Res (List Nat) :=
  runC1_after_put (put 10 k v stC1start) k

def kC1 : List Nat := List.replicate 32 9

/-- A value the data model allows (`len ≤ MAX_OBJECT_SIZE`) whose PUT
frame is one byte larger than `MAX_OBJECT_SIZE`. -/
def bigC1 : List Nat := List.replicate (MAX_OBJECT_SIZE - 40) 0

def kC1w : List Nat := List.replicate 32 7

/-! ### Association-list and write-path lemmas -/

theorem le32_length (n : Nat) : (le32 n).length = 4 := rfl

theorem fromLE32_le32 (n : Nat) : fromLE32 (le32 n) = n % 4294967296 := by
  simp only [le32, fromLE32, List.getD]
  simp only [List.get?_cons_zero, List.get?_cons_succ, Option.getD_some]
  omega

theorem mask32_lt (x : Nat) : mask32 x < 4294967296 :=
  Nat.mod_lt _ (by norm_num)

theorem fromLE32_le32_mask (n : Nat) : fromLE32 (le32 (mask32 n)) = mask32 n := by
  rw [fromLE32_le32]; exact Nat.mod_mod_of_dvd n dvd_rfl ▸ rfl

/-- CRC chaining: `crc32(b, crc32(a, i)) = crc32(a ++ b, i)`; the write
path computes the CRC in several chained `zlib.crc32` calls while the
read path re-computes it over the concatenation. -/
theorem crc32With_append (i : Nat) (a b : List Nat) :
    crc32With (crc32With i a) b = crc32With i (a ++ b) := by
  simp only [crc32With, List.foldl_append]
  congr 1
  rw [Nat.xor_assoc, Nat.xor_self, Nat.xor_zero]

theorem readRecord9_size_lower {file : List Nat} {offset : Nat} {readData : Bool}
    {r : Nat × Nat × List Nat × List Nat}
    (h : readRecord9 file offset readData = .ok r) : 9 ≤ r.1 := by
  unfold readRecord9 at h
  dsimp only at h
  repeat' split at h
  all_goals first
    | exact Except.noConfusion h
    | (injection h with h'; subst h'; dsimp only; omega)

theorem alGet_alSet_self {α : Type} (m : List (Nat × α)) (k : Nat) (v : α) :
    alGet (alSet m k v) k = some v := by
  induction m with
  | nil => simp [alGet, alSet]
  | cons p rest ih =>
    obtain ⟨k', v'⟩ := p
    by_cases h : k' = k
    · simp [alGet, alSet, h]
    · simp [alGet, alSet, h, ih]

theorem alGet_alSet_ne {α : Type} (m : List (Nat × α)) (k k' : Nat) (v : α)
    (h : k ≠ k') : alGet (alSet m k v) k' = alGet m k' := by
  induction m with
  | nil => simp [alGet, alSet, h]
  | cons p rest ih =>
    obtain ⟨k'', v'⟩ := p
    by_cases h2 : k'' = k
    · subst h2; simp [alGet, alSet, h]
    · simp [alGet, alSet, h2, ih]

theorem alSet_alSet {α : Type} (m : List (Nat × α)) (k : Nat) (v w : α) :
    alSet (alSet m k v) k w = alSet m k w := by
  induction m with
  | nil => simp [alSet]
  | cons p rest ih =>
    obtain ⟨k', v'⟩ := p
    by_cases h : k' = k <;> simp [alSet, h, ih]

theorem close_segment_writeOpen (io : IOSt) : (close_segment io).writeOpen = false := by
  by_cases h : io.writeOpen = true <;> simp [close_segment, h]

theorem close_segment_of_closed (io : IOSt) (h : io.writeOpen = false) :
    close_segment io = io := by
  simp [close_segment, h]

theorem get_write_fd_nn_of_closed (io : IOSt) (h : io.writeOpen = false) :
    get_write_fd_nn io =
      { io with writeOpen := true, offset := 8, files := alSet io.files io.segment MAGIC } := by
  by_cases hr : rollNeeded io = true <;>
    simp [get_write_fd_nn, close_segment, h, hr, openWriteFd]

/-- Under the write-fd invariant (`offset` equals the length of the
open segment file), `get_write_fd` yields an open fd whose file length
matches `offset`; without rollover the segment is unchanged. -/
theorem get_write_fd_nn_spec (io : IOSt)
    (h : io.writeOpen = true → (alGetD io.files io.segment []).length = io.offset) :
    (get_write_fd_nn io).writeOpen = true ∧
    (alGetD (get_write_fd_nn io).files (get_write_fd_nn io).segment []).length
        = (get_write_fd_nn io).offset ∧
    (rollNeeded io = false → (get_write_fd_nn io).segment = io.segment ∧
        (io.writeOpen = true → (get_write_fd_nn io).offset = io.offset) ∧
        (get_write_fd_nn io).offset ≤ max io.offset 8) := by
  by_cases hr : rollNeeded io = true
  · by_cases hw : io.writeOpen = true
    · simp [get_write_fd_nn, openWriteFd, close_segment, hr, hw, alGetD, alGet_alSet_self]
      rfl
    · simp [get_write_fd_nn, openWriteFd, close_segment, hr, hw, alGetD, alGet_alSet_self]
      rfl
  · simp only [Bool.not_eq_true] at hr
    by_cases hw : io.writeOpen = true
    · simp [get_write_fd_nn, openWriteFd, close_segment, hr, hw, h]
    · simp [get_write_fd_nn, openWriteFd, close_segment, hr, hw, alGetD, alGet_alSet_self]
      rfl

/-- `write_put` appends its whole frame to one segment file. -/
theorem write_put_frame (id data : List Nat) (io : IOSt)
    (h : io.writeOpen = true → (alGetD io.files io.segment []).length = io.offset)
    (hsz : data.length + 41 < 4294967296) :
    ∃ io' seg off pre,
      write_put id data false io = .ok (io', seg, off) ∧
      alGet io'.files seg = some (pre ++ putFrameBytes id data) ∧
      pre.length = off ∧
      io'.offset = off + (data.length + 41) ∧
      (rollNeeded io = false → seg = io.segment ∧
        (io.writeOpen = true → off = io.offset) ∧ off ≤ max io.offset 8) := by
  obtain ⟨hopen, hlen, hroll⟩ := get_write_fd_nn_spec io h
  refine ⟨{ get_write_fd_nn io with
      files := alSet (get_write_fd_nn io).files (get_write_fd_nn io).segment
        (alGetD (get_write_fd_nn io).files (get_write_fd_nn io).segment []
          ++ putFrameBytes id data),
      offset := (get_write_fd_nn io).offset + (data.length + 41) },
    (get_write_fd_nn io).segment, (get_write_fd_nn io).offset,
    alGetD (get_write_fd_nn io).files (get_write_fd_nn io).segment [], ?_, ?_, ?_, ?_, ?_⟩
  · simp only [write_put, fdWrite, Bool.false_eq_true, if_false]
    rw [if_neg (by omega)]
  · simp [alGet_alSet_self]
  · exact hlen
  · rfl
  · exact hroll

/-- `write_delete` appends its whole frame to one segment file. -/
theorem write_delete_frame (id : List Nat) (io : IOSt)
    (h : io.writeOpen = true → (alGetD io.files io.segment []).length = io.offset) :
    ∃ io' seg pre,
      write_delete id false io = .ok (io', seg, 41) ∧
      alGet io'.files seg = some (pre ++ deleteFrameBytes id) ∧
      io'.offset = pre.length + 41 ∧
      (rollNeeded io = false → seg = io.segment) := by
  obtain ⟨hopen, hlen, hroll⟩ := get_write_fd_nn_spec io h
  refine ⟨{ get_write_fd_nn io with
      files := alSet (get_write_fd_nn io).files (get_write_fd_nn io).segment
        (alGetD (get_write_fd_nn io).files (get_write_fd_nn io).segment []
          ++ deleteFrameBytes id),
      offset := (get_write_fd_nn io).offset + 41 },
    (get_write_fd_nn io).segment,
    alGetD (get_write_fd_nn io).files (get_write_fd_nn io).segment [], rfl, ?_, ?_, ?_⟩
  · simp [alGet_alSet_self]
  · simp [hlen]
  · intro hrf; exact (hroll hrf).1

/-- `write_commit` in closed form: the COMMIT frame always goes into a
fresh segment consisting of exactly `MAGIC ++ COMMIT_BYTES`. -/
theorem write_commit_eq (io : IOSt) :
    write_commit io =
      { segment := (close_segment io).segment + 1, offset := 0, writeOpen := false,
        limit := (close_segment io).limit,
        files := alSet (close_segment io).files (close_segment io).segment
          (MAGIC ++ COMMIT_BYTES) } := by
  have h1 : (close_segment io).writeOpen = false := close_segment_writeOpen io
  simp only [write_commit, get_write_fd_nn_of_closed _ h1, fdWrite]
  simp only [alGetD, alGet_alSet_self, Option.getD_some]
  rw [alSet_alSet]
  rw [show MAGIC ++ (le32 (mask32 (crc32With 0 COMMIT_HDR)) ++ COMMIT_HDR)
        = MAGIC ++ COMMIT_BYTES by decide]
  simp [close_segment]

theorem putFrameBytes_length (id data : List Nat) :
    (putFrameBytes id data).length = 9 + id.length + data.length := by
  simp [putFrameBytes, le32]
  omega

theorem mem_insertDesc {n m : Nat} {l : List Nat} :
    m ∈ insertDesc n l ↔ m = n ∨ m ∈ l := by
  induction l with
  | nil => simp [insertDesc]
  | cons x xs ih =>
    by_cases h : x ≤ n
    · simp [insertDesc, h]
    · simp [insertDesc, h, ih]
      tauto

theorem mem_sortDesc {m : Nat} {l : List Nat} : m ∈ sortDesc l ↔ m ∈ l := by
  induction l with
  | nil => simp [sortDesc]
  | cons x xs ih => simp [sortDesc, mem_insertDesc, ih]

theorem sortDesc_eq_nil {l : List Nat} : sortDesc l = [] ↔ l = [] := by
  cases l with
  | nil => simp [sortDesc]
  | cons x xs =>
    simp [sortDesc]
    cases h : sortDesc xs with
    | nil => simp [insertDesc]
    | cons y ys =>
      by_cases h2 : y ≤ x <;> simp [insertDesc, h2]

theorem insertDesc_sorted {n : Nat} {l : List Nat}
    (h : l.Sorted (· ≥ ·)) : (insertDesc n l).Sorted (· ≥ ·) := by
  induction l with
  | nil => simp [insertDesc]
  | cons x xs ih =>
    rw [List.sorted_cons] at h
    by_cases h2 : x ≤ n
    · simp only [insertDesc, h2, if_true]
      refine List.sorted_cons.2 ⟨?_, List.sorted_cons.2 h⟩
      intro b hb
      rcases List.mem_cons.1 hb with rfl | hb
      · exact h2
      · exact le_trans (h.1 b hb) h2
    · simp only [insertDesc, h2, if_false]
      refine List.sorted_cons.2 ⟨?_, ih h.2⟩
      intro b hb
      rcases mem_insertDesc.1 hb with rfl | hb
      · omega
      · exact h.1 b hb

theorem sortDesc_sorted (l : List Nat) : (sortDesc l).Sorted (· ≥ ·) := by
  induction l with
  | nil => simp [sortDesc]
  | cons x xs ih => exact insertDesc_sorted ih

theorem sortDesc_head_max {l : List Nat} {n : Nat} {rest : List Nat}
    (h : sortDesc l = n :: rest) : n ∈ l ∧ ∀ m ∈ l, m ≤ n := by
  have hmem : n ∈ l := mem_sortDesc.1 (h ▸ List.mem_cons_self n rest)
  refine ⟨hmem, fun m hm => ?_⟩
  have : m ∈ sortDesc l := mem_sortDesc.2 hm
  rw [h] at this
  rcases List.mem_cons.1 this with rfl | hmm
  · exact le_refl m
  · have hs := sortDesc_sorted l
    rw [h, List.sorted_cons] at hs
    exact hs.1 m hmm

theorem giti_char (st : RepoState) (n : Nat) :
    get_index_transaction_id st = some n ↔
      n ∈ idxNonzeroIds st ∧ ∀ m ∈ idxNonzeroIds st, m ≤ n := by
  unfold get_index_transaction_id
  constructor
  · intro h
    cases hs : sortDesc (idxNonzeroIds st) with
    | nil => rw [show ((st.idxFiles.filter (fun f => f.2.isSome)).map (fun f => f.1)) = idxNonzeroIds st from rfl, hs] at h; simp at h
    | cons x rest =>
      rw [show ((st.idxFiles.filter (fun f => f.2.isSome)).map (fun f => f.1)) = idxNonzeroIds st from rfl, hs] at h
      simp at h
      subst h
      exact sortDesc_head_max hs
  · rintro ⟨hmem, hmax⟩
    rw [show ((st.idxFiles.filter (fun f => f.2.isSome)).map (fun f => f.1)) = idxNonzeroIds st from rfl]
    cases hs : sortDesc (idxNonzeroIds st) with
    | nil =>
      rw [sortDesc_eq_nil] at hs
      rw [hs] at hmem
      simp at hmem
    | cons x rest =>
      obtain ⟨hx, hxmax⟩ := sortDesc_head_max hs
      simp only [hs]
      exact congrArg some (Nat.le_antisymm (hmax x hx) (hxmax n hmem))


theorem fcd_cons_none (io : IOSt) (x : Nat) (xs : List Nat)
    (h : alGet io.files x = none) :
    findCommittedDesc io (x :: xs) = findCommittedDesc io xs := by
  simp only [findCommittedDesc, h]

theorem fcd_cons_some (io : IOSt) (x : Nat) (xs : List Nat) (f : List Nat)
    (h : alGet io.files x = some f) :
    findCommittedDesc io (x :: xs) =
      if is_committed_segment f then some x else findCommittedDesc io xs := by
  simp only [findCommittedDesc, h]

theorem findCommittedDesc_spec (io : IOSt) (s : Nat) :
    ∀ l : List Nat, l.Sorted (· ≥ ·) →
      (findCommittedDesc io l = some s ↔
        s ∈ l ∧ segCommitted io s = true ∧
          ∀ t ∈ l, s < t → segCommitted io t = false) := by
  intro l
  induction l with
  | nil => simp [findCommittedDesc]
  | cons x xs ih =>
    intro hsorted
    rw [List.sorted_cons] at hsorted
    have hstep : findCommittedDesc io (x :: xs) =
        if segCommitted io x = true then some x else findCommittedDesc io xs := by
      cases halg : alGet io.files x with
      | none =>
        rw [fcd_cons_none io x xs halg]
        simp [segCommitted, halg]
      | some f =>
        rw [fcd_cons_some io x xs f halg]
        simp only [segCommitted, halg]
    by_cases hx : segCommitted io x = true
    · rw [hstep, if_pos hx]
      constructor
      · intro h
        injection h with h
        subst h
        refine ⟨List.mem_cons_self x xs, hx, fun t ht hlt => ?_⟩
        rcases List.mem_cons.1 ht with rfl | ht
        · omega
        · exact absurd (hsorted.1 t ht) (by omega)
      · rintro ⟨hmem, hcs, hbig⟩
        rcases List.mem_cons.1 hmem with rfl | hmem
        · rfl
        · have hle : s ≤ x := hsorted.1 s hmem
          by_cases heq : s = x
          · rw [heq]
          · have := hbig x (List.mem_cons_self x xs) (by omega)
            rw [hx] at this
            exact absurd this (by simp)
    · rw [hstep, if_neg hx]
      rw [ih hsorted.2]
      simp only [Bool.not_eq_true] at hx
      constructor
      · rintro ⟨hmem, hcs, hbig⟩
        refine ⟨List.mem_cons_of_mem x hmem, hcs, fun t ht hlt => ?_⟩
        rcases List.mem_cons.1 ht with rfl | ht
        · exact hx
        · exact hbig t ht hlt
      · rintro ⟨hmem, hcs, hbig⟩
        rcases List.mem_cons.1 hmem with rfl | hmem
        · rw [hcs] at hx; exact absurd hx (by simp)
        · exact ⟨hmem, hcs, fun t ht hlt => hbig t (List.mem_cons_of_mem x ht) hlt⟩

theorem gsti_char (io : IOSt) (s : Nat) :
    get_segments_transaction_id io = some s ↔
      s ∈ segIds io ∧ segCommitted io s = true ∧
        ∀ t ∈ segIds io, s < t → segCommitted io t = false := by
  unfold get_segments_transaction_id
  rw [show io.files.map (fun f => f.1) = segIds io from rfl]
  rw [findCommittedDesc_spec io s (sortDesc (segIds io)) (sortDesc_sorted _)]
  constructor
  · rintro ⟨hmem, h2, h3⟩
    exact ⟨mem_sortDesc.1 hmem, h2, fun t ht => h3 t (mem_sortDesc.2 ht)⟩
  · rintro ⟨hmem, h2, h3⟩
    exact ⟨mem_sortDesc.2 hmem, h2, fun t ht => h3 t (mem_sortDesc.1 ht)⟩

theorem write_put_false_eq (id data : List Nat) (io : IOSt) :
    write_put id data false io =
      (if data.length + 41 ≥ 4294967296 then .error .structError
       else .ok ({ fdWrite (get_write_fd_nn io) (putFrameBytes id data) with
                     offset := (get_write_fd_nn io).offset + (data.length + 41) },
                 (get_write_fd_nn io).segment, (get_write_fd_nn io).offset)) := rfl

theorem readRecordPut_size_bounds {file : List Nat} {offset : Nat} {readData : Bool}
    {r : Nat × Nat × List Nat × List Nat}
    (h : readRecordPut file offset readData = .ok r) :
    41 ≤ r.1 ∧ r.1 ≤ MAX_OBJECT_SIZE := by
  unfold readRecordPut at h
  dsimp only at h
  repeat' split at h
  all_goals first
    | exact Except.noConfusion h
    | (injection h with h'; subst h'; dsimp only; omega)

theorem readRecord9_size_bounds {file : List Nat} {offset : Nat} {readData : Bool}
    {r : Nat × Nat × List Nat × List Nat}
    (h : readRecord9 file offset readData = .ok r) :
    9 ≤ r.1 ∧ r.1 ≤ MAX_OBJECT_SIZE := by
  unfold readRecord9 at h
  dsimp only at h
  repeat' split at h
  all_goals first
    | exact Except.noConfusion h
    | (injection h with h'; subst h'; dsimp only; omega)

theorem scanCommitAux_eq (objs : List Obj) : ∀ seen,
    scanCommitAux seen objs =
      (noNonCommitAfterCommitAux seen objs &&
        (seen || objs.any (fun o => o.tag == TAG_COMMIT))) := by
  induction objs with
  | nil => intro seen; simp [scanCommitAux, noNonCommitAfterCommitAux]
  | cons o rest ih =>
    intro seen
    by_cases hc : o.tag = TAG_COMMIT
    · simp only [scanCommitAux, noNonCommitAfterCommitAux, hc, if_true, List.any_cons]
      rw [ih true]
      simp [hc]
    · cases seen with
      | true => simp [scanCommitAux, noNonCommitAfterCommitAux, hc]
      | false =>
        have hb : (o.tag == TAG_COMMIT) = false := by simp [hc]
        simp only [scanCommitAux, noNonCommitAfterCommitAux, hc, if_false, List.any_cons, hb]
        rw [ih false]
        simp

theorem recoverWalk_eq_spec : ∀ fuel data,
    recoverWalk fuel data = recoverWalkSpec fuel data := by
  intro fuel
  induction fuel with
  | zero => intro data; rfl
  | succ n ih =>
    intro data
    by_cases h1 : data.length < 9
    · simp [recoverWalk, recoverWalkSpec, h1]
    · simp only [recoverWalk, recoverWalkSpec, h1, if_false]
      by_cases h2 : fromLE32 ((data.drop 4).take 4) < 9 ∨ data.length < fromLE32 ((data.drop 4).take 4)
      · rw [if_pos h2, if_neg (by rintro ⟨ha, hb, -⟩; rcases h2 with h | h <;> omega)]
        exact ih _
      · rw [if_neg h2]
        by_cases h3 : mask32 (crc32With 0 ((data.take (fromLE32 ((data.drop 4).take 4))).drop 4)) ≠ fromLE32 (data.take 4)
        · rw [if_pos h3, if_neg (by rintro ⟨-, -, hc⟩; exact h3 hc)]
          exact ih _
        · push_neg at h2 h3
          rw [if_neg (by push_neg; omega), if_pos ⟨h2.1, h2.2, h3⟩]
          rw [ih]

theorem recoverWalk_eq_join : ∀ fuel data,
    recoverWalk fuel data = (recoverChunks fuel data).flatten := by
  intro fuel
  induction fuel with
  | zero => intro data; rfl
  | succ n ih =>
    intro data
    by_cases h1 : data.length < 9
    · simp [recoverWalk, recoverChunks, h1]
    · simp only [recoverWalk, recoverChunks, h1, if_false]
      by_cases h2 : fromLE32 ((data.drop 4).take 4) < 9 ∨ data.length < fromLE32 ((data.drop 4).take 4)
      · rw [if_pos h2, if_pos h2]
        exact ih _
      · rw [if_neg h2, if_neg h2]
        by_cases h3 : mask32 (crc32With 0 ((data.take (fromLE32 ((data.drop 4).take 4))).drop 4)) ≠ fromLE32 (data.take 4)
        · rw [if_pos h3, if_pos h3]
          exact ih _
        · rw [if_neg h3, if_neg h3, List.flatten_cons, ih]

theorem recoverChunks_valid : ∀ fuel data f, f ∈ recoverChunks fuel data → validFrame f := by
  intro fuel
  induction fuel with
  | zero => intro data f h; simp [recoverChunks] at h
  | succ n ih =>
    intro data f h
    by_cases h1 : data.length < 9
    · simp [recoverChunks, h1] at h
    · rw [recoverChunks, if_neg h1] at h
      by_cases h2 : fromLE32 ((data.drop 4).take 4) < 9 ∨ data.length < fromLE32 ((data.drop 4).take 4)
      · rw [if_pos h2] at h
        exact ih _ f h
      · rw [if_neg h2] at h
        by_cases h3 : mask32 (crc32With 0 ((data.take (fromLE32 ((data.drop 4).take 4))).drop 4)) ≠ fromLE32 (data.take 4)
        · rw [if_pos h3] at h
          exact ih _ f h
        · rw [if_neg h3] at h
          push_neg at h2 h3
          rcases List.mem_cons.1 h with rfl | h
          · refine ⟨?_, ?_, ?_⟩
            · rw [List.length_take]
              omega
            · rw [List.drop_take, List.take_take]
              rw [List.length_take, show min 4 (fromLE32 ((data.drop 4).take 4) - 4) = 4 by omega]
              rw [show min (fromLE32 ((data.drop 4).take 4)) data.length = fromLE32 ((data.drop 4).take 4) by omega]
            · rw [List.take_take, show min 4 (fromLE32 ((data.drop 4).take 4)) = 4 by omega]
              exact h3
          · exact ih _ f h

theorem keys_alSet {α : Type} (m : List (Nat × α)) (k t : Nat) (v : α) :
    t ∈ (alSet m k v).map (fun f => f.1) ↔ t = k ∨ t ∈ m.map (fun f => f.1) := by
  induction m with
  | nil => simp [alSet]
  | cons p rest ih =>
    obtain ⟨k', v'⟩ := p
    by_cases h : k' = k
    · subst h; simp [alSet]
    · simp [alSet, h, ih]
      tauto

theorem commit_bytes_committed : is_committed_segment (MAGIC ++ COMMIT_BYTES) = true := by
  decide

theorem alGet_alSetdefault_self {α : Type} (m : List (Nat × α)) (k : Nat) (d : α) :
    alGet (alSetdefault m k d) k = some (alGetD m k d) := by
  unfold alSetdefault alGetD
  cases h : alGet m k with
  | none => simp [h, alGet_alSet_self]
  | some c => simp [h]

theorem put_write_eq_spec (k v : List Nat) (st : RepoState) :
    put_write k v st = put_spec_new k v st := by
  unfold put_write put_spec_new
  cases hix : st.index with
  | none => rfl
  | some ix =>
    cases hw : write_put k v false st.io with
    | error e => rfl
    | ok r =>
      obtain ⟨io, nseg, noff⟩ := r
      dsimp only
      rw [alGet_alSetdefault_self]
      dsimp only
      have : alSet (alSetdefault st.segments nseg 0) nseg (alGetD st.segments nseg 0 + 1)
          = alAdd (alSetdefault st.segments nseg 0) nseg 1 := by
        unfold alAdd alGetD
        rw [alGet_alSetdefault_self]
        rfl
      rw [this]

theorem readRecordPut_putFrame (k v : List Nat) (hk : k.length = 32)
    (hsz : v.length + 41 < 4294967296) :
    readRecordPut (MAGIC ++ putFrameBytes k v) 8 true =
      if MAX_OBJECT_SIZE < v.length + 41 then .error .integrityError
      else .ok (v.length + 41, TAG_PUT, k, v) := by
  set c := mask32 (crc32With (crc32With (crc32With 0 (le32 (v.length + 41) ++ [TAG_PUT])) k) v) with hc
  set P : List Nat := le32 c ++ le32 (v.length + 41) ++ [TAG_PUT] ++ k with hPdef
  have hPlen : P.length = 41 := by simp [hPdef, le32, hk]
  have hF : putFrameBytes k v = P ++ v := by
    unfold putFrameBytes
    simp [hPdef, List.append_assoc]
  have hdropMagic : (MAGIC ++ putFrameBytes k v).drop 8 = P ++ v := by
    rw [show (8 : Nat) = MAGIC.length from rfl, List.drop_left, hF]
  have hheader : ((MAGIC ++ putFrameBytes k v).drop 8).take 41 = P := by
    rw [hdropMagic, show (41 : Nat) = P.length from hPlen.symm, List.take_left]
  have hcrc4 : P.take 4 = le32 c := by
    rw [hPdef,
      List.take_append_of_le_length (show (4 : Nat) ≤ ((le32 c ++ le32 (v.length + 41)) ++ [TAG_PUT]).length by simp [le32]),
      List.take_append_of_le_length (show (4 : Nat) ≤ (le32 c ++ le32 (v.length + 41)).length by simp [le32]),
      List.take_append_of_le_length (show (4 : Nat) ≤ (le32 c).length by simp [le32]),
      List.take_of_length_le (by simp [le32])]
  have hdrop4 : P.drop 4 = le32 (v.length + 41) ++ [TAG_PUT] ++ k := by
    rw [hPdef,
      List.drop_append_of_le_length (show (4 : Nat) ≤ ((le32 c ++ le32 (v.length + 41)) ++ [TAG_PUT]).length by simp [le32]),
      List.drop_append_of_le_length (show (4 : Nat) ≤ (le32 c ++ le32 (v.length + 41)).length by simp [le32]),
      show (4 : Nat) = (le32 c).length + 0 from rfl, List.drop_append, List.drop_zero]
  have hsize4 : (P.drop 4).take 4 = le32 (v.length + 41) := by
    rw [hdrop4,
      List.take_append_of_le_length (show (4 : Nat) ≤ (le32 (v.length + 41) ++ [TAG_PUT]).length by simp [le32]),
      List.take_append_of_le_length (show (4 : Nat) ≤ (le32 (v.length + 41)).length by simp [le32]),
      List.take_of_length_le (by simp [le32])]
  have htag : P.getD 8 0 = TAG_PUT := by
    rw [hPdef, List.getD_append _ _ _ _ (show (8 : Nat) < ((le32 c ++ le32 (v.length + 41)) ++ [TAG_PUT]).length by simp [le32]),
      List.getD_append_right _ _ _ _ (show (le32 c ++ le32 (v.length + 41)).length ≤ 8 by simp [le32])]
    simp [le32]
  have hkey : P.drop 9 = k := by
    rw [hPdef, show (9 : Nat) = ((le32 c ++ le32 (v.length + 41)) ++ [TAG_PUT]).length + 0 by simp [le32],
      List.drop_append, List.drop_zero]
  have hdata : (((MAGIC ++ putFrameBytes k v).drop 8).drop 41).take (v.length + 41 - 41) = v := by
    rw [hdropMagic, show (41 : Nat) = P.length from hPlen.symm, List.drop_left,
      Nat.add_sub_cancel, List.take_length]
  unfold readRecordPut
  dsimp only
  rw [hheader, hcrc4, hsize4, htag, hkey, hdrop4, hPlen]
  rw [show fromLE32 (le32 c) = c by rw [hc, fromLE32_le32_mask]]
  rw [fromLE32_le32, Nat.mod_eq_of_lt hsz]
  rw [if_neg (by simp)]
  by_cases hbig : MAX_OBJECT_SIZE < v.length + 41
  · rw [if_pos (by left; exact hbig), if_pos hbig]
  · rw [if_neg (by push_neg; exact ⟨by omega, by omega⟩), if_neg hbig]
    rw [if_pos rfl]
    rw [hdata]
    rw [if_neg (by simp)]
    rw [if_neg (show ¬(mask32 (crc32With (crc32With 0 (le32 (v.length + 41) ++ [TAG_PUT] ++ k)) v) ≠ c) by
      rw [hc]
      simp only [crc32With_append, List.append_assoc, ne_eq, not_not])]
    rw [if_pos rfl]

theorem putC1_prepare (k v : List Nat) :
    put 10 k v stC1start = put_write k v stC1mid := rfl

theorem putC1_eq (k v : List Nat) (hsz : v.length + 41 < 4294967296) :
    put 10 k v stC1start = .ok () (stC1p k v) := by
  rw [putC1_prepare]
  unfold put_write
  dsimp only [stC1mid]
  rw [write_put_false_eq]
  rw [if_neg (by omega)]
  rfl

theorem commit_red (st : RepoState) (hao : st.appendOnly = false) (hcp : st.compact = []) :
    commit false st = commit_tail (write_index { st with io := write_commit st.io }) := by
  unfold commit
  dsimp only
  rw [hao]
  simp only [Bool.false_eq_true, if_false]
  unfold compact_segments
  dsimp only
  rw [hcp]
  simp only [List.isEmpty_nil, if_true]
  rfl

theorem upd_stC1p (k v : List Nat) :
    ({ stC1p k v with io := write_commit (stC1p k v).io } : RepoState) = stC1w k v := rfl

theorem wiC1 (k v : List Nat) :
    write_index (stC1w k v) =
      .ok [FsEv.writeHintsTmp 1, FsEv.fsyncHintsTmp 1, FsEv.renameHints 1,
           FsEv.writeIndexTmp, FsEv.renameIndex 1]
        { stC1w k v with
          idxFiles := [(1, some [(k, (0, 8))])]
          hintsFiles := [(1, Hints.v2 [(0, 1)] [])]
          index := none } := rfl

theorem commitC1_eq (k v : List Nat) :
    commit false (stC1p k v) = .ok () (stC1c k v) := by
  refine (commit_red (stC1p k v) rfl rfl).trans ?h
  rw [upd_stC1p, wiC1]
  rfl

theorem ixGetC1 (k : List Nat) :
    ixGet [(k, ((0 : Nat), (8 : Nat)))] k = some (0, 8) := by
  simp [ixGet]

theorem getC1_red (k v : List Nat) :
    repoGet 10 k (stC1c k v) = get_tail k (stC1g k v) := rfl

theorem getC1_eq (k v : List Nat) :
    repoGet 10 k (stC1c k v) =
      read_tail (ioReadData (ioC1c k v) 0 8 k) (stC1g k v) := by
  rw [getC1_red]
  unfold get_tail
  dsimp only [stC1g]
  rw [ixGetC1 k]
  rfl

theorem ioReadDataC1_ok (k v : List Nat) (hk : k.length = 32)
    (hv : 41 + v.length ≤ MAX_OBJECT_SIZE) :
    ioReadData (ioC1c k v) 0 8 k = .ok v := by
  unfold ioReadData
  rw [show alGet (ioC1c k v).files 0 = some (MAGIC ++ putFrameBytes k v) from rfl]
  dsimp only
  rw [readRecordPut_putFrame k v hk (by unfold MAX_OBJECT_SIZE at hv; omega)]
  rw [if_neg (by omega)]
  dsimp only
  rw [if_neg (by simp)]

theorem bigC1_length : bigC1.length = MAX_OBJECT_SIZE - 40 := by
  simp [bigC1]

theorem ioReadDataC1_err (k v : List Nat) (hk : k.length = 32)
    (hsz : v.length + 41 < 4294967296) (hbig : MAX_OBJECT_SIZE < v.length + 41) :
    ioReadData (ioC1c k v) 0 8 k = .error .integrityError := by
  unfold ioReadData
  rw [show alGet (ioC1c k v).files 0 = some (MAGIC ++ putFrameBytes k v) from rfl]
  dsimp only
  rw [readRecordPut_putFrame k v hk hsz]
  rw [if_pos hbig]

theorem runC1_eq (k v : List Nat) (hsz : v.length + 41 < 4294967296) :
    runC1 k v = read_tail (ioReadData (ioC1c k v) 0 8 k) (stC1g k v) := by
  unfold runC1
  rw [putC1_eq k v hsz]
  rw [show runC1_after_put (.ok () (stC1p k v)) k
        = runC1_after_commit (commit false (stC1p k v)) k from rfl]
  rw [commitC1_eq]
  rw [show runC1_after_commit (.ok () (stC1c k v)) k = repoGet 10 k (stC1c k v) from rfl]
  exact getC1_eq k v

/-! ## Claim theorems -/

/-- **C5.** Crash-recovery reconciliation on open: `check_transaction`
computes `index_txid` as the highest `index.<N>` file with non-zero
size and `segments_txid` as the highest segment ending in a valid
COMMIT; it raises `CheckNeeded` exactly when `index_txid` is present
and `segments_txid` is absent; when `index_txid > segments_txid` it
discards the index and replays from scratch (`replay_from = None`);
when `index_txid` is absent or less than `segments_txid` it replays
the segments in `(index_txid, segments_txid]`; when the two are equal
(including both absent) it performs no action. -/
theorem claim_C5_check_transaction_reconciliation :
    (∀ fuel st, check_transaction (fuel + 1) st =
        (match check_transaction_action (get_index_transaction_id st)
            (get_segments_transaction_id st.io) with
        | .checkNeeded => .err .checkNeeded st
        | .noAction => .ok () st
        | .replay rf to_tid => replay_segments fuel rf to_tid st)) ∧
    (∀ idx seg, check_transaction_action idx seg = .checkNeeded ↔ idx.isSome = true ∧ seg = none) ∧
    (∀ i s, s < i → check_transaction_action (some i) (some s) = .replay none s) ∧
    (∀ s, check_transaction_action none (some s) = .replay none s) ∧
    (∀ i s, i < s → check_transaction_action (some i) (some s) = .replay (some i) s) ∧
    (∀ o, check_transaction_action o o = .noAction) ∧
    (∀ st n, get_index_transaction_id st = some n ↔
        n ∈ idxNonzeroIds st ∧ ∀ m ∈ idxNonzeroIds st, m ≤ n) ∧
    (∀ io s, get_segments_transaction_id io = some s ↔
        s ∈ segIds io ∧ segCommitted io s = true ∧
          ∀ t ∈ segIds io, s < t → segCommitted io t = false) := by
  refine ⟨fun fuel st => rfl, ?_, ?_, ?_, ?_, ?_, giti_char, gsti_char⟩
  · intro idx seg
    cases idx <;> cases seg <;> simp [check_transaction_action]
    rename_i i s
    by_cases h : i = s <;> simp [h]
    by_cases h2 : i > s <;> simp [h2]
  · intro i s h
    have h1 : ¬(i = s) := by omega
    simp [check_transaction_action, h1, h]
  · intro s; rfl
  · intro i s h
    have h1 : ¬(i = s) := by omega
    have h2 : ¬(i > s) := by omega
    simp [check_transaction_action, h1, h2]
  · intro o
    cases o with
    | none => rfl
    | some i => simp [check_transaction_action]

theorem claim_C5_witness :
    check_transaction_action (some 2) (some 1) = .replay none 1 ∧
    check_transaction_action (some 1) (some 3) = .replay (some 1) 3 :=
  ⟨claim_C5_check_transaction_reconciliation.2.2.1 2 1 (by decide),
   claim_C5_check_transaction_reconciliation.2.2.2.2.1 1 3 (by decide)⟩

/-- **C9.** Frames are never split across segments, and a segment may
exceed `max_segment_size`: `get_write_fd` rolls to a new segment only
when the pre-write offset already strictly exceeds the limit, each
PUT/DELETE/COMMIT frame lies entirely within a single segment file,
and a segment written while the offset was still at or below the limit
can grow past `max_segment_size` by up to one whole frame. -/
theorem claim_C9_frames_never_split :
    (∀ io : IOSt, rollNeeded io = true ↔ io.limit < io.offset) ∧
    (∀ id data io,
      (io.writeOpen = true → (alGetD io.files io.segment []).length = io.offset) →
      data.length + 41 < 4294967296 →
      ∃ io' seg off pre,
        write_put id data false io = .ok (io', seg, off) ∧
        alGet io'.files seg = some (pre ++ putFrameBytes id data) ∧
        pre.length = off ∧
        (rollNeeded io = false → seg = io.segment ∧ off ≤ max io.offset 8 ∧
          (pre ++ putFrameBytes id data).length
            ≤ max io.limit 8 + (putFrameBytes id data).length)) ∧
    (∀ id io,
      (io.writeOpen = true → (alGetD io.files io.segment []).length = io.offset) →
      ∃ io' seg pre, write_delete id false io = .ok (io', seg, 41) ∧
        alGet io'.files seg = some (pre ++ deleteFrameBytes id) ∧
        (rollNeeded io = false → seg = io.segment)) ∧
    (∀ io : IOSt,
      alGet (write_commit io).files (close_segment io).segment
        = some (MAGIC ++ COMMIT_BYTES)) := by
  refine ⟨?_, ?_, ?_, ?_⟩
  · intro io
    simp [rollNeeded]
    omega
  · intro id data io h hsz
    obtain ⟨io', seg, off, pre, h1, h2, h3, h4, h5⟩ := write_put_frame id data io h hsz
    refine ⟨io', seg, off, pre, h1, h2, h3, fun hroll => ?_⟩
    obtain ⟨hseg, hoff, hmax⟩ := h5 hroll
    have hor : io.offset = 0 ∨ io.offset ≤ io.limit := by
      simp [rollNeeded] at hroll
      omega
    refine ⟨hseg, hmax, ?_⟩
    rw [List.length_append, h3]
    have : off ≤ max io.limit 8 := by
      rcases hor with h0 | hle <;> omega
    omega
  · intro id io h
    obtain ⟨io', seg, pre, h1, h2, h3, h4⟩ := write_delete_frame id io h
    exact ⟨io', seg, pre, h1, h2, h4⟩
  · intro io
    rw [write_commit_eq]
    exact alGet_alSet_self _ _ _

theorem claim_C9_witness :
    ∃ io' seg off pre,
      write_put kw9 [1, 2, 3] false iow9 = .ok (io', seg, off) ∧
      alGet io'.files seg = some (pre ++ putFrameBytes kw9 [1, 2, 3]) ∧
      pre.length = off ∧
      (rollNeeded iow9 = false → seg = iow9.segment ∧ off ≤ max iow9.offset 8 ∧
        (pre ++ putFrameBytes kw9 [1, 2, 3]).length
          ≤ max iow9.limit 8 + (putFrameBytes kw9 [1, 2, 3]).length) :=
  claim_C9_frames_never_split.2.1 kw9 [1, 2, 3] iow9 (by decide) (by decide)

/-- The resulting segment file exceeds `max_segment_size` by one frame. -/
theorem segment_exceeds_limit_example :
    write_put kw9 [1, 2, 3] false iow9 =
      .ok (⟨0, 54, true, 10, [(0, List.replicate 10 7 ++ putFrameBytes kw9 [1, 2, 3])]⟩, 0, 10) ∧
    iow9.limit <
      (List.replicate 10 7 ++ putFrameBytes kw9 [1, 2, 3] : List Nat).length := by
  constructor <;> decide

/-- **C3 (counterexample).** The data-model size bound is not
maintained by the write path: `write_put` of a `MAX_OBJECT_SIZE`-byte
value (a size the data model allows) succeeds and produces a frame of
total size `MAX_OBJECT_SIZE + 41 > MAX_OBJECT_SIZE`, violating the
bound that `_read` enforces when decoding. -/
theorem claim_C3_counterexample :
    MAX_OBJECT_SIZE < (putFrameBytes kC3 bigvalC3).length ∧
    write_put kC3 bigvalC3 false ioC3 =
      .ok (⟨0, 8 + (MAX_OBJECT_SIZE + 41), true, 5242880,
            [(0, MAGIC ++ putFrameBytes kC3 bigvalC3)]⟩, 0, 8) := by
  have hlen : bigvalC3.length = MAX_OBJECT_SIZE := List.length_replicate _ _
  constructor
  · rw [putFrameBytes_length, hlen]
    simp [kC3, MAX_OBJECT_SIZE]
  · rw [write_put_false_eq, hlen]
    rw [if_neg (by simp [MAX_OBJECT_SIZE])]
    rw [get_write_fd_nn_of_closed ioC3 rfl]
    simp only [fdWrite, alSet, alGetD, alGet, ioC3]
    simp

/-- **C3 (amended).** Keys and values are not size-checked on the write
path: `write_put` succeeds for any value (frame size
`41 + len(value)`, with no `MAX_OBJECT_SIZE` or key-length check),
while the read path `_read` only ever accepts frames whose size lies in
`[header_size, MAX_OBJECT_SIZE]`; a stored value is therefore readable
only if `len(value) ≤ MAX_OBJECT_SIZE - 41`. -/
theorem claim_C3_amended :
    (∀ id data io,
      (io.writeOpen = true → (alGetD io.files io.segment []).length = io.offset) →
      data.length + 41 < 4294967296 →
      ∃ io' seg off pre, write_put id data false io = .ok (io', seg, off) ∧
        alGet io'.files seg = some (pre ++ putFrameBytes id data) ∧
        (putFrameBytes id data).length = 9 + id.length + data.length) ∧
    (∀ file offset readData r, readRecordPut file offset readData = .ok r →
        41 ≤ r.1 ∧ r.1 ≤ MAX_OBJECT_SIZE) ∧
    (∀ file offset readData r, readRecord9 file offset readData = .ok r →
        9 ≤ r.1 ∧ r.1 ≤ MAX_OBJECT_SIZE) := by
  refine ⟨?_, ?_, ?_⟩
  · intro id data io h hsz
    obtain ⟨io', seg, off, pre, h1, h2, h3, h4, h5⟩ := write_put_frame id data io h hsz
    exact ⟨io', seg, off, pre, h1, h2, putFrameBytes_length id data⟩
  · intro file offset readData r h
    exact readRecordPut_size_bounds h
  · intro file offset readData r h
    exact readRecord9_size_bounds h

theorem claim_C3_amended_witness :
    ∃ io' seg off pre, write_put kC3w [9] false ioC3 = .ok (io', seg, off) ∧
      alGet io'.files seg = some (pre ++ putFrameBytes kC3w [9]) ∧
      (putFrameBytes kC3w [9]).length = 9 + kC3w.length + [9].length :=
  claim_C3_amended.1 kC3w [9] ioC3 (by decide) (by decide)

/-- **C7 (counterexample).** The claim's iff fails: a segment holding a
single PUT frame whose value equals the canonical COMMIT frame has its
last `header_size` (9) bytes equal to the COMMIT frame and contains no
non-COMMIT entry after a COMMIT entry, yet `is_committed_segment`
returns `False` (it additionally requires a decodable file containing
at least one COMMIT entry). -/
theorem claim_C7_counterexample :
    is_committed_segment c7file = false ∧
    lastBytes 9 c7file = COMMIT_BYTES ∧
    iter_objects true c7file = .ok [⟨TAG_PUT, kC7, 8, COMMIT_BYTES, 50⟩] ∧
    noNonCommitAfterCommit [⟨TAG_PUT, kC7, 8, COMMIT_BYTES, 50⟩] = true := by
  exact ⟨by decide, by decide, by decide, by decide⟩

/-- **C7 (amended).** `is_committed_segment(seg)` returns true iff the
file is at least 9 bytes long, its last 9 bytes equal the canonical
COMMIT frame, the whole file decodes without `IntegrityError`, no
non-COMMIT entry follows a COMMIT entry, and at least one COMMIT entry
exists. -/
theorem claim_C7_amended (file : List Nat) :
    is_committed_segment file = true ↔
      9 ≤ file.length ∧ lastBytes 9 file = COMMIT_BYTES ∧
      ∃ objs, iter_objects true file = .ok objs ∧
        noNonCommitAfterCommit objs = true ∧ (∃ o ∈ objs, o.tag = TAG_COMMIT) := by
  unfold is_committed_segment
  unfold noNonCommitAfterCommit
  by_cases h1 : file.length < 9
  · simp only [h1, if_true]
    constructor
    · intro h; exact absurd h (by simp)
    · rintro ⟨hlen, -⟩; omega
  · rw [if_neg h1]
    by_cases h2 : lastBytes 9 file = COMMIT_BYTES
    · rw [if_neg (by simp [h2])]
      cases hit : iter_objects true file with
      | error e =>
        simp only [hit]
        constructor
        · intro h; exact absurd h (by simp)
        · rintro ⟨-, -, objs, hobjs, -⟩
          exact absurd hobjs (by simp)
      | ok objs =>
        simp only [hit]
        rw [scanCommitAux_eq objs false]
        constructor
        · intro h
          simp only [Bool.false_or, Bool.and_eq_true] at h
          refine ⟨by omega, h2, objs, rfl, h.1, ?_⟩
          obtain ⟨o, ho, htag⟩ := List.any_eq_true.1 h.2
          exact ⟨o, ho, by simpa using htag⟩
        · rintro ⟨-, -, objs2, hobjs2, hgap, o, ho, htag⟩
          injection hobjs2 with he
          subst he
          simp only [Bool.false_or, Bool.and_eq_true]
          exact ⟨hgap, List.any_eq_true.2 ⟨o, ho, by simpa using htag⟩⟩
    · rw [if_pos (by simp [h2])]
      constructor
      · intro h; exact absurd h (by simp)
      · rintro ⟨-, hlast, -⟩; exact absurd hlast h2

theorem claim_C7_amended_witness :
    9 ≤ (MAGIC ++ COMMIT_BYTES : List Nat).length ∧
    lastBytes 9 (MAGIC ++ COMMIT_BYTES) = COMMIT_BYTES ∧
    ∃ objs, iter_objects true (MAGIC ++ COMMIT_BYTES) = .ok objs ∧
      noNonCommitAfterCommit objs = true ∧ (∃ o ∈ objs, o.tag = TAG_COMMIT) :=
  (claim_C7_amended (MAGIC ++ COMMIT_BYTES)).1 (by decide)

/-- **C8.** `recover_segment` rewrites the segment file to the 8-byte
magic followed by exactly the frames selected by the byte-walk over the
original bytes (at each position: read a header; when `size` lies in
`[header_size, remaining_bytes]` and the CRC validates, emit the frame
and advance by `size`, else advance one byte); every emitted chunk is a
complete CRC-valid frame, and the original contents are preserved aside
as `<name>.beforerecover`. -/
theorem claim_C8_recover_segment :
    (∀ fuel data, recoverWalk fuel data = recoverWalkSpec fuel data) ∧
    (∀ orig, recover_segment orig =
        (MAGIC ++ recoverWalkSpec (orig.length + 1) orig, orig)) ∧
    (∀ fuel data, recoverWalk fuel data = (recoverChunks fuel data).flatten) ∧
    (∀ fuel data f, f ∈ recoverChunks fuel data → validFrame f) := by
  refine ⟨recoverWalk_eq_spec, ?_, recoverWalk_eq_join, recoverChunks_valid⟩
  intro orig
  unfold recover_segment
  rw [recoverWalk_eq_spec]

theorem claim_C8_witness : validFrame COMMIT_BYTES :=
  claim_C8_recover_segment.2.2.2 ((MAGIC ++ COMMIT_BYTES : List Nat).length + 1)
    (MAGIC ++ COMMIT_BYTES) COMMIT_BYTES (by decide)

/-- **C4 (counterexample).** The snapshot step does not write
`index.tmp` first: on a concrete state the first event of
`write_index` is the `hints.<txid>.tmp` write, not the `index.tmp`
write that the claimed order `write_index_trace_spec` begins with. -/
theorem claim_C4_counterexample :
    write_index stW4 =
      .ok [FsEv.writeHintsTmp 1, FsEv.fsyncHintsTmp 1, FsEv.renameHints 1,
           FsEv.writeIndexTmp, FsEv.renameIndex 1,
           FsEv.unlinkIndexFile 0, FsEv.unlinkHintsFile 0]
        { stW4 with hintsFiles := [(1, Hints.v2 [] [])], idxFiles := [(1, some [])],
                    index := none } ∧
    ([FsEv.writeHintsTmp 1, FsEv.fsyncHintsTmp 1, FsEv.renameHints 1,
      FsEv.writeIndexTmp, FsEv.renameIndex 1,
      FsEv.unlinkIndexFile 0, FsEv.unlinkHintsFile 0] : List FsEv).head?
      ≠ some FsEv.writeIndexTmp ∧
    (write_index_trace_spec 1 [0] [0]).head? = some FsEv.writeIndexTmp := by
  refine ⟨by decide, by decide, by decide⟩

/-- **C4 (amended).** The snapshot step of commit writes
`hints.<txid>.tmp` (with fsync) and renames it to `hints.<txid>`
*first*, then writes `index.tmp` and renames it to `index.<txid>`, and
finally unlinks every `index.*`/`hints.*` file whose numeric suffix is
not `txid` (appending to the `transactions` log in between when
append-only). -/
theorem claim_C4_amended (st : RepoState) (tid : Nat) (ix : IndexMap)
    (hgsti : get_segments_transaction_id st.io = some tid)
    (hix : st.index = some ix) :
    write_index st = .ok
      ([FsEv.writeHintsTmp tid, FsEv.fsyncHintsTmp tid, FsEv.renameHints tid,
        FsEv.writeIndexTmp, FsEv.renameIndex tid]
       ++ (if st.appendOnly then [FsEv.appendTransactionsLog tid] else [])
       ++ (((alSet st.idxFiles tid (some ix)).map (fun f => f.1)).filter
             (fun n => n ≠ tid)).map FsEv.unlinkIndexFile
       ++ (((alSet st.hintsFiles tid (Hints.v2 st.segments st.compact)).map
             (fun f => f.1)).filter (fun n => n ≠ tid)).map FsEv.unlinkHintsFile)
      { st with
        hintsFiles := (alSet st.hintsFiles tid
          (Hints.v2 st.segments st.compact)).filter (fun f => f.1 = tid)
        idxFiles := (alSet st.idxFiles tid (some ix)).filter (fun f => f.1 = tid)
        index := none } := by
  simp only [write_index, hgsti, hix]

theorem claim_C4_amended_witness :
    write_index stW4 = .ok
      ([FsEv.writeHintsTmp 1, FsEv.fsyncHintsTmp 1, FsEv.renameHints 1,
        FsEv.writeIndexTmp, FsEv.renameIndex 1]
       ++ (if stW4.appendOnly then [FsEv.appendTransactionsLog 1] else [])
       ++ (((alSet stW4.idxFiles 1 (some [])).map (fun f => f.1)).filter
             (fun n => n ≠ 1)).map FsEv.unlinkIndexFile
       ++ (((alSet stW4.hintsFiles 1 (Hints.v2 stW4.segments stW4.compact)).map
             (fun f => f.1)).filter (fun n => n ≠ 1)).map FsEv.unlinkHintsFile)
      { stW4 with
        hintsFiles := (alSet stW4.hintsFiles 1
          (Hints.v2 stW4.segments stW4.compact)).filter (fun f => f.1 = 1)
        idxFiles := (alSet stW4.idxFiles 1 (some [])).filter (fun f => f.1 = 1)
        index := none } :=
  claim_C4_amended stW4 1 [] (by decide) (by decide)

/-- **C2 (counterexample).** A second `commit` with no intervening
mutations is not a no-op: on a concrete put-then-commit repository the
second commit creates a brand-new segment file (id 2, beyond the
existing COMMIT segment 1) holding `MAGIC ++ COMMIT`, and then raises
`AttributeError` in `write_index` because the in-memory index was
discarded by the first commit's `rollback`. -/
theorem claim_C2_counterexample :
    put 10 kC2 [1, 2, 3] stC2start = .ok () stC2a ∧
    commit false stC2a = .ok () stC2b ∧
    stC2b.io.segment = 2 ∧
    alGet stC2b.io.files 2 = none ∧
    (∃ st', commit false stC2b = .err .attributeError st' ∧
      alGet st'.io.files 2 = some (MAGIC ++ COMMIT_BYTES) ∧
      st'.io.segment = 3) := by
  refine ⟨by decide, by decide, by decide, by decide, ?_⟩
  refine ⟨{ stC2b with
      io := { segment := 3, offset := 0, writeOpen := false, limit := 5242880,
              files := alSet stC2b.io.files 2 (MAGIC ++ COMMIT_BYTES) }
      hintsFiles := alSet stC2b.hintsFiles 2
        (Hints.v2 stC2b.segments stC2b.compact) }, by decide, by decide, by decide⟩

/-- **C2 (amended).** From any quiescent post-commit state (in-memory
index discarded, empty `compact`, write fd closed, not append-only,
all on-disk segments below the next segment id) a second `commit`
writes a fresh COMMIT segment — `write_commit` unconditionally creates
segment `io.segment` containing exactly `MAGIC ++ COMMIT` and bumps
the segment counter — and then fails with `AttributeError` when
`write_index` dereferences the discarded index. -/
theorem claim_C2_amended (st : RepoState)
    (hidx : st.index = none) (hcomp : st.compact = [])
    (hao : st.appendOnly = false) (hwo : st.io.writeOpen = false)
    (hkeys : ∀ s ∈ segIds st.io, s < st.io.segment) :
    commit false st = .err .attributeError
      { st with
        io := { segment := st.io.segment + 1, offset := 0, writeOpen := false,
                limit := st.io.limit,
                files := alSet st.io.files st.io.segment (MAGIC ++ COMMIT_BYTES) }
        hintsFiles := alSet st.hintsFiles st.io.segment
          (Hints.v2 st.segments st.compact) } ∧
    alGet (alSet st.io.files st.io.segment (MAGIC ++ COMMIT_BYTES)) st.io.segment
      = some (MAGIC ++ COMMIT_BYTES) := by
  have hcs : close_segment st.io = st.io := close_segment_of_closed _ hwo
  have hwc : write_commit st.io =
      { segment := st.io.segment + 1, offset := 0, writeOpen := false,
        limit := st.io.limit,
        files := alSet st.io.files st.io.segment (MAGIC ++ COMMIT_BYTES) } := by
    rw [write_commit_eq, hcs]
  set io1 : IOSt :=
      { segment := st.io.segment + 1, offset := 0, writeOpen := false,
        limit := st.io.limit,
        files := alSet st.io.files st.io.segment (MAGIC ++ COMMIT_BYTES) } with hio1
  have hgsti : get_segments_transaction_id io1 = some st.io.segment := by
    rw [gsti_char]
    refine ⟨?_, ?_, ?_⟩
    · show st.io.segment ∈ (alSet st.io.files st.io.segment (MAGIC ++ COMMIT_BYTES)).map _
      rw [keys_alSet]
      left; rfl
    · show segCommitted io1 st.io.segment = true
      unfold segCommitted
      show (match alGet io1.files st.io.segment with
            | some f => is_committed_segment f
            | none => false) = true
      rw [show alGet io1.files st.io.segment = some (MAGIC ++ COMMIT_BYTES) from
        alGet_alSet_self _ _ _]
      exact commit_bytes_committed
    · intro t ht hlt
      rw [show segIds io1 = (alSet st.io.files st.io.segment (MAGIC ++ COMMIT_BYTES)).map (fun f => f.1) from rfl, keys_alSet] at ht
      rcases ht with rfl | ht
      · omega
      · exact absurd (hkeys t ht) (by omega)
  have hc1 : compact_segments false { st with io := io1 } = .ok () { st with io := io1 } := by
    unfold compact_segments
    rw [show ({ st with io := io1 } : RepoState).compact = st.compact from rfl, hcomp]
    rfl
  have hwi : write_index { st with io := io1 } = .err .attributeError
      { st with
        io := io1
        hintsFiles := alSet st.hintsFiles st.io.segment
          (Hints.v2 st.segments st.compact) } := by
    unfold write_index
    rw [show ({ st with io := io1 } : RepoState).io = io1 from rfl, hgsti]
    rw [show ({ st with io := io1 } : RepoState).hintsFiles = st.hintsFiles from rfl]
    rw [show ({ st with io := io1 } : RepoState).segments = st.segments from rfl]
    rw [show ({ st with io := io1 } : RepoState).compact = st.compact from rfl]
    rw [show ({ st with
          io := io1
          hintsFiles := alSet st.hintsFiles st.io.segment
            (Hints.v2 st.segments st.compact) } : RepoState).index = st.index from rfl]
    rw [hidx]
  constructor
  · show commit false st = _
    unfold commit
    rw [hwc]
    dsimp only
    rw [if_neg (show ¬(st.appendOnly = true) by simp [hao]), hc1]
    dsimp only
    rw [hwi]
  · exact alGet_alSet_self _ _ _

theorem claim_C2_amended_witness :
    commit false stC2b = .err .attributeError
      { stC2b with
        io := { segment := stC2b.io.segment + 1, offset := 0, writeOpen := false,
                limit := stC2b.io.limit,
                files := alSet stC2b.io.files stC2b.io.segment (MAGIC ++ COMMIT_BYTES) }
        hintsFiles := alSet stC2b.hintsFiles stC2b.io.segment
          (Hints.v2 stC2b.segments stC2b.compact) } ∧
    alGet (alSet stC2b.io.files stC2b.io.segment (MAGIC ++ COMMIT_BYTES)) stC2b.io.segment
      = some (MAGIC ++ COMMIT_BYTES) :=
  claim_C2_amended stC2b (by decide) (by decide) (by decide) (by decide)
    (by decide)

/-- **C6.** The overwrite protocol of `put`: for a key already in the
index, `put` decrements `segments[old_seg]` and adds the old frame's
size to `compact[old_seg]`, writes a DELETE frame for the key adding
its size to `compact[delete_seg]` and ensuring
`delete_seg ∈ segments` with default live count 0, and only then
writes the PUT frame, sets `index[key] = (new_seg, new_off)` and
increments `segments[new_seg]` (the claim-worded transforms
`put_spec_existing` / `put_spec_new`); for an absent key only the
final PUT step occurs. -/
theorem claim_C6_put_overwrite :
    (∀ fuel st k v ix oseg ooff c n,
      st.activeTxn = true →
      st.index = some ix →
      ixGet ix k = some (oseg, ooff) →
      alGet st.segments oseg = some c →
      ioReadSize st.io oseg ooff k = .ok n →
      put fuel k v st = put_spec_existing k v oseg n st) ∧
    (∀ fuel st k v ix,
      st.activeTxn = true →
      st.index = some ix →
      ixGet ix k = none →
      put fuel k v st = put_spec_new k v st) := by
  constructor
  · intro fuel st k v ix oseg ooff c n htxn hix hkey hseg hread
    unfold put
    rw [if_neg (by simp [htxn])]
    dsimp only
    rw [hix]
    dsimp only
    rw [hkey]
    dsimp only
    rw [hseg]
    dsimp only
    rw [hread]
    dsimp only
    unfold put_spec_existing
    dsimp only
    have hsegs : alSet st.segments oseg (c - 1) = alAdd st.segments oseg (-1) := by
      unfold alAdd alGetD
      rw [hseg]
      simp [Int.sub_eq_add_neg]
    rw [hsegs]
    rw [hix]
    cases hd : write_delete k false st.io with
    | error e => rfl
    | ok r =>
      obtain ⟨io, dseg, dsize⟩ := r
      dsimp only
      rw [put_write_eq_spec]
  · intro fuel st k v ix htxn hix hkey
    unfold put
    rw [if_neg (by simp [htxn])]
    dsimp only
    rw [hix]
    dsimp only
    rw [hkey]
    exact put_write_eq_spec k v st

theorem claim_C6_witness :
    put 10 kC6 [9, 9, 9] stC6a = put_spec_existing kC6 [9, 9, 9] 0 43 stC6a :=
  claim_C6_put_overwrite.1 10 stC6a kC6 [9, 9, 9] [(kC6, (0, 8))] 0 8 1 43
    (by decide) (by decide) (by decide) (by decide) (by decide)

/-- **C10.** `check(repair=True)` always returns `True` whenever it
returns: the final return value is `not error_found or repair`, so
only `check(repair=False)` can return `False`. -/
theorem claim_C10_check_repair_returns_true :
    (∀ ss fuel st r st', check true ss fuel st = .ok r st' → r = true) ∧
    (∀ rep ss fuel st r st', check rep ss fuel st = .ok r st' →
        ∃ ef, check_core rep ss fuel st = .ok ef st' ∧ r = (!ef || rep)) := by
  have h2 : ∀ (rep ss : Bool) fuel st r st', check rep ss fuel st = .ok r st' →
      ∃ ef, check_core rep ss fuel st = .ok ef st' ∧ r = (!ef || rep) := by
    intro rep ss fuel st r st' h
    unfold check at h
    cases hc : check_core rep ss fuel st with
    | err e st2 => rw [hc] at h; exact absurd h (by simp)
    | ok ef st2 =>
      rw [hc] at h
      injection h with h1 hst
      subst hst
      exact ⟨ef, rfl, h1.symm⟩
  refine ⟨?_, h2⟩
  intro ss fuel st r st' h
  obtain ⟨ef, -, hr⟩ := h2 true ss fuel st r st' h
  rw [hr, Bool.or_true]

theorem claim_C10_witness :
    ∃ r st', check true false 20 stC10bad = .ok r st' ∧ r = true := by
  have hok : resIsOk (check true false 20 stC10bad) = true := by decide
  cases h : check true false 20 stC10bad with
  | ok r st' =>
    exact ⟨r, st', rfl, claim_C10_check_repair_returns_true.1 false 20 stC10bad r st' h⟩
  | err e st' =>
    rw [h] at hok
    exact absurd hok (by simp [resIsOk])

/-- In that run errors really were found and reported (and with
`repair=False` the same state makes `check` return `False`). -/
theorem check_repair_reports_errors_example :
    resOkVal (check_core true false 20 stC10bad) = some true ∧
    resOkVal (check false false 20 stC10bad) = some false := by
  constructor <;> decide

/-- C1, counterexample.  The round-trip `put(k, v); commit(); get(k) == v`
fails for a spec-legal input: `bigC1` has `MAX_OBJECT_SIZE - 40` bytes
(within the claimed value bound), `kC1` is a 32-byte key, yet `get`
raises `IntegrityError`, because `write_put` stores a frame of total
size `MAX_OBJECT_SIZE + 1` which the read path `_read` rejects. -/
theorem claim_C1_counterexample :
    bigC1.length ≤ MAX_OBJECT_SIZE ∧ kC1.length = 32 ∧
    runC1 kC1 bigC1 = .err .integrityError (stC1g kC1 bigC1) := by
  refine ⟨by rw [bigC1_length]; decide, by simp [kC1], ?c⟩
  rw [runC1_eq kC1 bigC1 (by rw [bigC1_length]; decide)]
  rw [ioReadDataC1_err kC1 bigC1 (by simp [kC1]) (by rw [bigC1_length]; decide)
      (by rw [bigC1_length]; decide)]
  rfl

/-- C1, amended.  The round-trip holds whenever the key is 32 bytes and
the PUT frame fits the read path bound, i.e. `41 + len(v) ≤
MAX_OBJECT_SIZE`: on a fresh repository `put(k, v); commit(); get(k)`
returns exactly `v`. -/
theorem claim_C1_amended (k v : List Nat) (hk : k.length = 32)
    (hv : 41 + v.length ≤ MAX_OBJECT_SIZE) :
    runC1 k v = .ok v (stC1g k v) := by
  rw [runC1_eq k v (by unfold MAX_OBJECT_SIZE at hv; omega)]
  rw [ioReadDataC1_ok k v hk hv]
  rfl

/-- C1 witness: the amended round-trip at a concrete key and value. -/
theorem claim_C1_amended_witness :
    runC1 kC1w [1, 2, 3] = .ok [1, 2, 3] (stC1g kC1w [1, 2, 3]) :=
  claim_C1_amended kC1w [1, 2, 3] (by decide) (by decide)


end Borg
